import Mathlib

/-!
Shallow embedding of the checkout-and-fulfillment core of the
`e-commerce-api` repository (Express + Prisma).  Route handlers become pure
Lean functions over an explicit database state `DB`; Prisma autoincrement
ids become explicit counters; `prisma.$transaction` blocks become the
single state transition of the corresponding function; fallible handlers
return `DB × Except ApiError α` (the returned `DB` is the committed state,
unchanged on every error path, exactly as in the source where all failures
happen before the transaction or roll it back).

Sources embedded:
  * `src/routes/cart.js`                (add / update cart item)
  * `src/routes/orders.js`              (legacy single-order checkout, buyer complete)
  * `src/routes/reviews.js`  (per-shop checkout with `selectedItemIds`, buyer
    order cancellation — the file also hosts these order routes)
  * `src/routes/seller.fulfillment.js`  (seller status update, `canSellerTransit`)
-/

namespace ECom

/-- `FulfillmentStatus` enum of the Prisma schema (order-item `status`). -/
inductive FulfillmentStatus where
  | NEW | CONFIRMED | SHIPPED | COMPLETED | CANCELLED
deriving DecidableEq, Repr

/-- Order `paymentStatus` values used by the routes. -/
inductive PaymentStatus where
  | PENDING | PAID | FAILED | REFUNDED
deriving DecidableEq, Repr

/-- `Product` row: the fields read and written by the embedded routes. -/
structure Product where
  id : Nat
  shopId : Nat
  title : String
  price : Int
  stock : Int
  soldCount : Int
  isActive : Bool
deriving DecidableEq, Repr

/-- `Cart` row (one per buyer, `userId` unique). -/
structure Cart where
  id : Nat
  userId : Nat
deriving DecidableEq, Repr

/-- `CartItem` row: `priceSnapshot` is captured at add/update time. -/
structure CartItem where
  id : Nat
  cartId : Nat
  productId : Nat
  qty : Int
  priceSnapshot : Int
deriving DecidableEq, Repr

/-- `Order` row: the fields the embedded routes create and mutate. -/
structure Order where
  id : Nat
  userId : Nat
  code : String
  paymentStatus : PaymentStatus
  totalAmount : Int
  addressSnap : String
deriving DecidableEq, Repr

/-- `OrderItem` row with the denormalized shop/title/price snapshot. -/
structure OrderItem where
  id : Nat
  orderId : Nat
  productId : Nat
  shopId : Nat
  qty : Int
  status : FulfillmentStatus
  titleSnap : String
  priceSnap : Int
deriving DecidableEq, Repr

/-- `Shop` row (`ownerId` unique: one shop per seller). -/
structure Shop where
  id : Nat
  ownerId : Nat
deriving DecidableEq, Repr

/-- Database state: the tables touched by the embedded routes plus the
autoincrement counters Prisma maintains for the rows these routes create. -/
structure DB where
  products : List Product
  carts : List Cart
  cartItems : List CartItem
  orders : List Order
  orderItems : List OrderItem
  shops : List Shop
  nextCartId : Nat
  nextCartItemId : Nat
  nextOrderId : Nat
  nextOrderItemId : Nat
deriving DecidableEq, Repr

/-- Error taxonomy: one constructor per distinct error response produced by
the embedded handlers, carrying the data the response message interpolates. -/
inductive ApiError where
  | emptyCart
  | noSelectedItemsFound
  | invalidSelection
  | productUnavailable (productId : Nat)
  | insufficientStock (productId : Nat)
  | onlyLeftInStock (stock : Int)
  | notFound
  | forbidden
  | noShop
  | invalidTransitionSeller (fromSt toSt : FulfillmentStatus)
  | invalidTransitionBuyer (fromSt : FulfillmentStatus)
  | orderNotCancellable
  | validationError
deriving DecidableEq, Repr

/-- Decidable equality of handler outcomes, for evaluating concrete runs. -/
instance {ε α : Type} [DecidableEq ε] [DecidableEq α] :
    DecidableEq (Except ε α) := fun x y =>
  match x, y with
  | .error e1, .error e2 =>
    if h : e1 = e2 then .isTrue (by rw [h])
    else .isFalse (fun hc => h (by injection hc))
  | .error _, .ok _ => .isFalse (fun hc => Except.noConfusion hc)
  | .ok _, .error _ => .isFalse (fun hc => Except.noConfusion hc)
  | .ok a, .ok b =>
    if h : a = b then .isTrue (by rw [h])
    else .isFalse (fun hc => h (by injection hc))

/-! ## Row lookups and updates (Prisma `findUnique` / `findFirst` / `update`) -/

/-- `prisma.product.findUnique({ where: { id } })`. -/
def findProduct (db : DB) (pid : Nat) : Option Product :=
  db.products.find? (fun p => p.id == pid)

/-- `prisma.cart.findUnique({ where: { userId } })`. -/
def findCartByUser (db : DB) (userId : Nat) : Option Cart :=
  db.carts.find? (fun c => c.userId == userId)

/-- `prisma.orderItem.findUnique({ where: { id } })`. -/
def findOrderItem (db : DB) (itemId : Nat) : Option OrderItem :=
  db.orderItems.find? (fun it => it.id == itemId)

/-- `prisma.order.findUnique({ where: { id } })`. -/
def findOrder (db : DB) (orderId : Nat) : Option Order :=
  db.orders.find? (fun o => o.id == orderId)

/-- `prisma.shop.findUnique({ where: { ownerId } })`. -/
def findShopByOwner (db : DB) (userId : Nat) : Option Shop :=
  db.shops.find? (fun s => s.ownerId == userId)

/-- `tx.orderItem.update({ where: { id }, data: { status } })`. -/
def setItemStatus (items : List OrderItem) (itemId : Nat)
    (st : FulfillmentStatus) : List OrderItem :=
  items.map (fun it => if it.id == itemId then { it with status := st } else it)

/-- `tx.order.update({ where: { id }, data: { paymentStatus } })`. -/
def setOrderPayment (orders : List Order) (orderId : Nat)
    (ps : PaymentStatus) : List Order :=
  orders.map (fun o => if o.id == orderId then { o with paymentStatus := ps } else o)

/-- `tx.product.update({ data: { stock: { decrement: qty }, soldCount:
{ increment: qty } } })` — the checkout-side stock reservation. -/
def reserveStock (ps : List Product) (pid : Nat) (qty : Int) : List Product :=
  ps.map (fun p =>
    if p.id == pid then
      { p with stock := p.stock - qty, soldCount := p.soldCount + qty }
    else p)

/-- `tx.product.update({ data: { stock: { increment: qty }, soldCount:
{ decrement: qty } } })` — the cancellation-side stock release. -/
def releaseStock (ps : List Product) (pid : Nat) (qty : Int) : List Product :=
  ps.map (fun p =>
    if p.id == pid then
      { p with stock := p.stock + qty, soldCount := p.soldCount - qty }
    else p)

/-! ## Seller fulfillment (`src/routes/seller.fulfillment.js`) -/

/-- `SELLER_UPDATE_STATUSES`: statuses a seller may request in the PATCH body
(enforced by the `body("status").isIn(...)` validator). -/
def SELLER_UPDATE_STATUSES : List FulfillmentStatus :=
  [.CONFIRMED, .SHIPPED, .CANCELLED]

/-- `canSellerTransit(from, to)` — literal translation of the seller
transition rule. -/
def canSellerTransit (fromSt toSt : FulfillmentStatus) : Bool :=
  if toSt == .CANCELLED then fromSt == .NEW || fromSt == .CONFIRMED
  else if fromSt == .NEW && toSt == .CONFIRMED then true
  else if fromSt == .CONFIRMED && toSt == .SHIPPED then true
  else false

/-- `PATCH /api/seller/order-items/:id/status`.

The express-validator chain `body("status").isIn(SELLER_UPDATE_STATUSES)`
runs before the handler.  Modelled from the spec: the repository's
`middleware/validation.js` (`handleValidationErrors`) is not among the
provided sources; per spec §7 validation-shaped errors are rejected before
any domain logic runs and never partially mutate state, so an out-of-range
target status yields `validationError` with the state untouched.  The rest
is a literal translation of the handler: seller shop lookup, item lookup,
shop-ownership check, `canSellerTransit`, then the status update. -/
def sellerUpdateStatus (db : DB) (userId : Nat) (itemId : Nat)
    (toSt : FulfillmentStatus) : DB × Except ApiError OrderItem :=
  if !(SELLER_UPDATE_STATUSES.contains toSt) then (db, .error .validationError)
  else
    match findShopByOwner db userId with
    | none => (db, .error .noShop)
    | some shop =>
      match findOrderItem db itemId with
      | none => (db, .error .notFound)
      | some item =>
        if item.shopId != shop.id then (db, .error .forbidden)
        else if !(canSellerTransit item.status toSt) then
          (db, .error (.invalidTransitionSeller item.status toSt))
        else
          ({ db with orderItems := setItemStatus db.orderItems itemId toSt },
           .ok { item with status := toSt })

/-! ## Buyer receipt confirmation (`src/routes/orders.js`,
`PATCH /api/orders/items/:id/complete`) -/

/-- Buyer marks an order item COMPLETED; only the owning order's buyer, and
only from SHIPPED. -/
def buyerCompleteItem (db : DB) (userId : Nat) (itemId : Nat) :
    DB × Except ApiError OrderItem :=
  match findOrderItem db itemId with
  | none => (db, .error .notFound)
  | some item =>
    match findOrder db item.orderId with
    | none => (db, .error .forbidden)
    | some order =>
      if order.userId != userId then (db, .error .forbidden)
      else if item.status != .SHIPPED then
        (db, .error (.invalidTransitionBuyer item.status))
      else
        ({ db with orderItems := setItemStatus db.orderItems itemId .COMPLETED },
         .ok { item with status := .COMPLETED })

/-! ## Buyer order cancellation (`src/routes/reviews.js`,
`PATCH /api/orders/:id/cancel`) -/

/-- Items of one order (`include: { items: ... }` on the order lookup). -/
def itemsOfOrder (db : DB) (orderId : Nat) : List OrderItem :=
  db.orderItems.filter (fun it => it.orderId == orderId)

/-- The cancellation transaction body: set every still-cancellable item to
CANCELLED, release its stock, then set the order REFUNDED. -/
def cancelTx (db : DB) (orderId : Nat) (cancellable : List OrderItem) : DB :=
  let db := cancellable.foldl
    (fun acc it =>
      { acc with
        orderItems := setItemStatus acc.orderItems it.id .CANCELLED,
        products := releaseStock acc.products it.productId it.qty })
    db
  { db with orders := setOrderPayment db.orders orderId .REFUNDED }

/-- `PATCH /api/orders/:id/cancel`: resolve order (404 when absent or not the
caller's), reject when any item is SHIPPED/COMPLETED, otherwise cancel the
NEW/CONFIRMED items in one transaction (or, when none remain, just re-assert
REFUNDED).  Returns the `cancelledItems` count of the response. -/
def cancelOrder (db : DB) (userId : Nat) (orderId : Nat) :
    DB × Except ApiError Nat :=
  match findOrder db orderId with
  | none => (db, .error .notFound)
  | some order =>
    if order.userId != userId then (db, .error .notFound)
    else
      let items := itemsOfOrder db orderId
      if items.any (fun it => it.status == .SHIPPED || it.status == .COMPLETED) then
        (db, .error .orderNotCancellable)
      else
        let cancellable := items.filter
          (fun it => it.status == .NEW || it.status == .CONFIRMED)
        if cancellable.isEmpty then
          ({ db with orders := setOrderPayment db.orders orderId .REFUNDED }, .ok 0)
        else
          (cancelTx db orderId cancellable, .ok cancellable.length)

/-! ## Checkout, per-shop variant (`src/routes/reviews.js`, `POST /checkout`
with address record and optional `selectedItemIds`) -/

/-- A cart item joined with its product (`include: { product: ... }` on the
`cartItem.findMany`); the product is `none` when the relation is missing,
mirroring the handler's `!it.product` check. -/
def enrich (db : DB) (items : List CartItem) : List (CartItem × Option Product) :=
  items.map (fun it => (it, findProduct db it.productId))

/-- The shop key used for grouping: `it.product.shopId` (only evaluated after
validation has ensured the product exists). -/
def itemShopId (e : CartItem × Option Product) : Nat :=
  match e.2 with
  | some p => p.shopId
  | none => 0

/-- Denormalized title snapshot `it.product.title`. -/
def prodTitle (op : Option Product) : String :=
  match op with
  | some p => p.title
  | none => ""

/-- Denormalized price snapshot `it.product.price` — note: the handler stores
the product's current price, not the cart item's `priceSnapshot`. -/
def prodPrice (op : Option Product) : Int :=
  match op with
  | some p => p.price
  | none => 0

/-- The stock/availability validation loop: returns the first failing item's
error (`Product ... not available` / `Insufficient stock for product ...`). -/
def validateItems : List (CartItem × Option Product) → Except ApiError Unit
  | [] => .ok ()
  | (it, none) :: _ => .error (.productUnavailable it.productId)
  | (it, some p) :: rest =>
    if !p.isActive then .error (.productUnavailable it.productId)
    else if p.stock < it.qty then .error (.insufficientStock it.productId)
    else validateItems rest

/-- One step of the JS `Map`-based grouping: `groups.get(key).push(it)` when
the key exists, `groups.set(key, [it])` otherwise (insertion order kept). -/
def insertGroup (gs : List (Nat × List (CartItem × Option Product))) (key : Nat)
    (e : CartItem × Option Product) : List (Nat × List (CartItem × Option Product)) :=
  if gs.any (fun g => g.1 == key) then
    gs.map (fun g => if g.1 == key then (g.1, g.2 ++ [e]) else g)
  else gs ++ [(key, [e])]

/-- `// 4) Group by shopId` — the `Map` build loop. -/
def groupByShop (items : List (CartItem × Option Product)) :
    List (Nat × List (CartItem × Option Product)) :=
  items.foldl (fun gs e => insertGroup gs (itemShopId e) e) []

/-- Per-shop order total:
`groupItems.reduce((sum, x) => sum + x.qty * x.priceSnapshot, 0)` — computed
from the cart item's `priceSnapshot`. -/
def groupTotal (gItems : List (CartItem × Option Product)) : Int :=
  gItems.foldl (fun sum x => sum + x.1.qty * x.1.priceSnapshot) 0

/-- Order code `ORD-${Date.now().toString().slice(-8)}-${shopId}`; the clock
is an explicit `now` parameter. -/
def mkOrderCode (now : Nat) (shopId : Nat) : String :=
  "ORD-" ++ toString (now % 100000000) ++ "-" ++ toString shopId

/-- The order row created for one shop partition. -/
def mkOrder (userId : Nat) (address : String) (now : Nat) (oid : Nat)
    (shopId : Nat) (gItems : List (CartItem × Option Product)) : Order :=
  { id := oid, userId := userId, code := mkOrderCode now shopId,
    paymentStatus := .PAID, totalAmount := groupTotal gItems,
    addressSnap := address }

/-- Inner transaction loop body: `tx.orderItem.create` (status NEW, title and
price denormalized from the product) followed by the `tx.product.update`
stock decrement. -/
def processItem (shopId orderId : Nat) (db : DB) (e : CartItem × Option Product) : DB :=
  let oi : OrderItem :=
    { id := db.nextOrderItemId, orderId := orderId, productId := e.1.productId,
      shopId := shopId, qty := e.1.qty, status := .NEW,
      titleSnap := prodTitle e.2, priceSnap := prodPrice e.2 }
  { db with
    orderItems := db.orderItems ++ [oi],
    nextOrderItemId := db.nextOrderItemId + 1,
    products := reserveStock db.products e.1.productId e.1.qty }

/-- Outer transaction loop body: create the shop's order, then process each of
its items. -/
def processGroup (userId : Nat) (address : String) (now : Nat)
    (acc : DB × List Order) (g : Nat × List (CartItem × Option Product)) :
    DB × List Order :=
  let order := mkOrder userId address now acc.1.nextOrderId g.1 g.2
  let db := { acc.1 with
    orders := acc.1.orders ++ [order], nextOrderId := acc.1.nextOrderId + 1 }
  (g.2.foldl (processItem g.1 order.id) db, acc.2 ++ [order])

/-- Cart drain at the end of the transaction: delete the selected items only
when `selectedItemIds` was sent, the whole cart otherwise. -/
def drainCart (db : DB) (cartId : Nat) (selectedIds : List Nat) : DB :=
  if !selectedIds.isEmpty then
    { db with cartItems := (db.cartItems.filter
        (fun it => !(it.cartId == cartId && selectedIds.contains it.id))) }
  else
    { db with cartItems := db.cartItems.filter (fun it => !(it.cartId == cartId)) }

/-- The data the handler has read before entering `prisma.$transaction`: the
cart id and the joined item list the transaction closure captures. -/
structure CheckoutSnap where
  cartId : Nat
  items : List (CartItem × Option Product)
deriving DecidableEq, Repr

/-- The `cartItem.findMany` of the checkout: all items of the cart, or only
the selected ones when `selectedItemIds` was sent. -/
def selectedCartItems (db : DB) (cartId : Nat) (selectedIds : List Nat) :
    List CartItem :=
  db.cartItems.filter
    (fun it => it.cartId == cartId &&
      (selectedIds.isEmpty || selectedIds.contains it.id))

/-- Read-and-validate phase of `POST /checkout`: everything the handler does
before `prisma.$transaction` — cart lookup, item selection, selection
validation, and the stock/availability loop. -/
def checkoutValidate (db : DB) (userId : Nat) (selectedIds : List Nat) :
    Except ApiError CheckoutSnap :=
  match findCartByUser db userId with
  | none => .error .emptyCart
  | some cart =>
    let items := selectedCartItems db cart.id selectedIds
    if !selectedIds.isEmpty && items.isEmpty then .error .noSelectedItemsFound
    else if !selectedIds.isEmpty &&
        !(selectedIds.filter (fun i => !(items.any (fun it => it.id == i)))).isEmpty then
      .error .invalidSelection
    else if items.isEmpty then .error .emptyCart
    else
      match validateItems (enrich db items) with
      | .error e => .error e
      | .ok _ => .ok { cartId := cart.id, items := enrich db items }

/-- Commit phase of `POST /checkout`: the `prisma.$transaction` body, applied
to the *current* state `db` but driven by the items captured in `snap` (the
decrements are relative updates, so they hit whatever stock `db` holds at
commit time — the read-then-write structure of the source). -/
def checkoutCommit (db : DB) (userId : Nat) (address : String) (now : Nat)
    (selectedIds : List Nat) (snap : CheckoutSnap) : DB × List Order :=
  let (db, created) :=
    (groupByShop snap.items).foldl (processGroup userId address now) (db, [])
  (drainCart db snap.cartId selectedIds, created)

/-- `POST /checkout` (per-shop variant): validate, then run the transaction;
every error path leaves the state untouched. -/
def checkout (db : DB) (userId : Nat) (address : String)
    (selectedIds : List Nat) (now : Nat) : DB × Except ApiError (List Order) :=
  match checkoutValidate db userId selectedIds with
  | .error e => (db, .error e)
  | .ok snap =>
    let (db', created) := checkoutCommit db userId address now selectedIds snap
    (db', .ok created)

/-! ## Checkout, legacy single-order variant (`src/routes/orders.js`,
`POST /api/orders/checkout`) -/

/-- Inner transaction loop body of the legacy checkout: `tx.orderItem.create`
(shop denormalized from the product) plus the stock decrement. -/
def processItemSingle (orderId : Nat) (db : DB) (e : CartItem × Option Product) : DB :=
  let oi : OrderItem :=
    { id := db.nextOrderItemId, orderId := orderId, productId := e.1.productId,
      shopId := itemShopId e, qty := e.1.qty, status := .NEW,
      titleSnap := prodTitle e.2, priceSnap := prodPrice e.2 }
  { db with
    orderItems := db.orderItems ++ [oi],
    nextOrderItemId := db.nextOrderItemId + 1,
    products := reserveStock db.products e.1.productId e.1.qty }

/-- Legacy `POST /api/orders/checkout`: whole cart, one order, `totalAmount`
summed over every cart item's `priceSnapshot`, then one transaction creating
the order and its items, decrementing stock, and emptying the cart. -/
def checkoutSingle (db : DB) (userId : Nat) (address : String) (now : Nat) :
    DB × Except ApiError Order :=
  match findCartByUser db userId with
  | none => (db, .error .emptyCart)
  | some cart =>
    let items := db.cartItems.filter (fun it => it.cartId == cart.id)
    if items.isEmpty then (db, .error .emptyCart)
    else
      let joined := enrich db items
      match validateItems joined with
      | .error e => (db, .error e)
      | .ok _ =>
        let totalAmount := items.foldl (fun sum x => sum + x.qty * x.priceSnapshot) 0
        let order : Order :=
          { id := db.nextOrderId, userId := userId,
            code := "ORD-" ++ toString (now % 100000000),
            paymentStatus := .PAID, totalAmount := totalAmount,
            addressSnap := address }
        let db' := { db with
          orders := db.orders ++ [order], nextOrderId := db.nextOrderId + 1 }
        let db' := joined.foldl (processItemSingle order.id) db'
        ({ db' with cartItems := (db'.cartItems.filter
            (fun it => !(it.cartId == cart.id))) }, .ok order)

/-! ## Cart mutation (`src/routes/cart.js`) -/

/-- `POST /api/cart/items`: merge-add a product into the buyer's cart.  The
`body("qty").isInt({ min: 1 })` validator is modelled from the spec (§7) as
the initial `validationError` guard, since `middleware/validation.js` is not
among the provided sources; the rest is a literal translation: product
availability check, cart upsert, merge with any existing line, the
read-only `desiredQty > product.stock` check, then update-or-create with a
fresh `priceSnapshot`. -/
def addCartItem (db : DB) (userId : Nat) (productId : Nat) (qty : Int) :
    DB × Except ApiError CartItem :=
  if qty < 1 then (db, .error .validationError)
  else
    match findProduct db productId with
    | none => (db, .error (.productUnavailable productId))
    | some product =>
      if !product.isActive then (db, .error (.productUnavailable productId))
      else
        let (db, cart) :=
          match findCartByUser db userId with
          | some c => (db, c)
          | none =>
            let c : Cart := { id := db.nextCartId, userId := userId }
            ({ db with carts := db.carts ++ [c], nextCartId := db.nextCartId + 1 }, c)
        let existing := db.cartItems.find?
          (fun it => it.cartId == cart.id && it.productId == productId)
        let desiredQty := (match existing with | some e => e.qty | none => 0) + qty
        if product.stock < desiredQty then
          (db, .error (.onlyLeftInStock product.stock))
        else
          match existing with
          | some e =>
            let item := { e with qty := desiredQty, priceSnapshot := product.price }
            ({ db with cartItems := (db.cartItems.map
                (fun it => if it.id == e.id then item else it)) }, .ok item)
          | none =>
            let item : CartItem :=
              { id := db.nextCartItemId, cartId := cart.id,
                productId := productId, qty := qty, priceSnapshot := product.price }
            ({ db with
                cartItems := db.cartItems ++ [item],
                nextCartItemId := db.nextCartItemId + 1 }, .ok item)

/-- `PATCH /api/cart/items/:itemId`: set a cart line's quantity after the
ownership, availability and read-only stock checks (the qty validator again
modelled from the spec as the initial guard). -/
def updateCartItem (db : DB) (userId : Nat) (itemId : Nat) (qty : Int) :
    DB × Except ApiError CartItem :=
  if qty < 1 then (db, .error .validationError)
  else
    match db.cartItems.find? (fun it => it.id == itemId) with
    | none => (db, .error .notFound)
    | some item =>
      match db.carts.find? (fun c => c.id == item.cartId) with
      | none => (db, .error .notFound)
      | some cart =>
        if cart.userId != userId then (db, .error .notFound)
        else
          match findProduct db item.productId with
          | none => (db, .error (.productUnavailable item.productId))
          | some product =>
            if !product.isActive then (db, .error (.productUnavailable item.productId))
            else if product.stock < qty then
              (db, .error (.onlyLeftInStock product.stock))
            else
              let item' := { item with qty := qty, priceSnapshot := product.price }
              ({ db with cartItems := (db.cartItems.map
                  (fun it => if it.id == itemId then item' else it)) }, .ok item')

/-! ## Observation helpers and proof-side accounting functions -/

/-- Stock of a product as stored in a state. -/
def stockOf (db : DB) (pid : Nat) : Option Int :=
  (findProduct db pid).map (fun p => p.stock)

/-- Sold count of a product as stored in a state. -/
def soldOf (db : DB) (pid : Nat) : Option Int :=
  (findProduct db pid).map (fun p => p.soldCount)

/-- Whether a handler outcome is a success. -/
def exceptOk {α : Type} : Except ApiError α → Bool
  | .ok _ => true
  | .error _ => false

/-- Total quantity a joined item list orders of one product. -/
def sumQty (L : List (CartItem × Option Product)) (pid : Nat) : Int :=
  (L.map (fun e => if e.1.productId = pid then e.1.qty else 0)).sum

/-- Total quantity a cart-item list orders of one product. -/
def sumQtyC (l : List CartItem) (pid : Nat) : Int :=
  (l.map (fun it => if it.productId = pid then it.qty else 0)).sum

/-- Total quantity an order-item list holds of one product. -/
def sumQtyItems (l : List OrderItem) (pid : Nat) : Int :=
  (l.map (fun it => if it.productId = pid then it.qty else 0)).sum

/-- The net product-table effect of reserving every item of a list. -/
def applyDecs (L : List (CartItem × Option Product)) (ps : List Product) :
    List Product :=
  L.foldl (fun ps e => reserveStock ps e.1.productId e.1.qty) ps

/-- The net product-table effect of releasing every order item of a list. -/
def applyIncs (L : List OrderItem) (ps : List Product) : List Product :=
  L.foldl (fun ps it => releaseStock ps it.productId it.qty) ps

/-- Concatenation of the item lists of a group list. -/
def joinGroups (gs : List (Nat × List (CartItem × Option Product))) :
    List (CartItem × Option Product) :=
  gs.flatMap (fun g => g.2)

/-- The order items one shop partition creates, with their sequentially
assigned ids. -/
def mkOrderItems (shopId orderId : Nat) (startId : Nat) :
    List (CartItem × Option Product) → List OrderItem
  | [] => []
  | e :: rest =>
    { id := startId, orderId := orderId, productId := e.1.productId,
      shopId := shopId, qty := e.1.qty, status := .NEW,
      titleSnap := prodTitle e.2, priceSnap := prodPrice e.2 }
      :: mkOrderItems shopId orderId (startId + 1) rest

/-- The orders a group list creates, with their sequentially assigned ids. -/
def mkOrders (userId : Nat) (address : String) (now : Nat) (oidStart : Nat) :
    List (Nat × List (CartItem × Option Product)) → List Order
  | [] => []
  | g :: rest =>
    mkOrder userId address now oidStart g.1 g.2
      :: mkOrders userId address now (oidStart + 1) rest

/-- All order items a group list creates. -/
def mkAllItems (oidStart oiidStart : Nat) :
    List (Nat × List (CartItem × Option Product)) → List OrderItem
  | [] => []
  | g :: rest =>
    mkOrderItems g.1 oidStart oiidStart g.2
      ++ mkAllItems (oidStart + 1) (oiidStart + g.2.length) rest

/-- The still-cancellable (NEW/CONFIRMED) items of an order. -/
def cancellableOf (db : DB) (orderId : Nat) : List OrderItem :=
  (itemsOfOrder db orderId).filter
    (fun it => it.status == .NEW || it.status == .CONFIRMED)

/-! ## Basic accounting lemmas -/

theorem foldl_add_map {α : Type} (f : α → Int) :
    ∀ (l : List α) (a : Int), l.foldl (fun s x => s + f x) a = a + (l.map f).sum
  | [], a => by simp
  | x :: l, a => by
    rw [List.foldl_cons, foldl_add_map f l (a + f x)]
    simp [add_assoc]

theorem groupTotal_eq_sum (L : List (CartItem × Option Product)) :
    groupTotal L = (L.map (fun e => e.1.qty * e.1.priceSnapshot)).sum := by
  unfold groupTotal
  rw [foldl_add_map]
  simp

theorem sumQty_cons (e : CartItem × Option Product)
    (L : List (CartItem × Option Product)) (pid : Nat) :
    sumQty (e :: L) pid =
      (if e.1.productId = pid then e.1.qty else 0) + sumQty L pid := by
  simp [sumQty]

theorem reserveStock_applied (ps : List Product) (pid : Nat) (qty : Int) :
    reserveStock ps pid qty =
      ps.map (fun p =>
        if p.id == pid then
          { p with stock := p.stock - qty, soldCount := p.soldCount + qty }
        else p) := rfl

theorem applyDecs_eq_map :
    ∀ (L : List (CartItem × Option Product)) (ps : List Product),
      applyDecs L ps = ps.map (fun p =>
        { p with stock := p.stock - sumQty L p.id,
                 soldCount := p.soldCount + sumQty L p.id })
  | [], ps => by
    have h : ∀ p : Product,
        ({ p with stock := p.stock - sumQty [] p.id,
                  soldCount := p.soldCount + sumQty [] p.id } : Product) = p := by
      intro p
      cases p
      simp [sumQty]
    simp only [applyDecs, List.foldl_nil]
    rw [List.map_congr_left (fun p _ => h p), List.map_id' ps]
  | e :: L, ps => by
    have step : applyDecs (e :: L) ps =
        applyDecs L (reserveStock ps e.1.productId e.1.qty) := rfl
    rw [step, applyDecs_eq_map L, reserveStock_applied, List.map_map]
    apply List.map_congr_left
    intro p _
    by_cases h : p.id = e.1.productId
    · simp only [Function.comp, h, beq_self_eq_true, if_true]
      have hq : sumQty (e :: L) e.1.productId = e.1.qty + sumQty L e.1.productId := by
        rw [sumQty_cons, if_pos rfl]
      simp [hq, sub_sub, add_assoc]
    · have hb : (p.id == e.1.productId) = false := by
        simp [h]
      have hq : sumQty (e :: L) p.id = sumQty L p.id := by
        rw [sumQty_cons, if_neg (fun hh => h hh.symm)]
        simp
      simp [Function.comp, hb, hq]

theorem releaseStock_applied (ps : List Product) (pid : Nat) (qty : Int) :
    releaseStock ps pid qty =
      ps.map (fun p =>
        if p.id == pid then
          { p with stock := p.stock + qty, soldCount := p.soldCount - qty }
        else p) := rfl

theorem sumQtyItems_cons (it : OrderItem) (l : List OrderItem) (pid : Nat) :
    sumQtyItems (it :: l) pid =
      (if it.productId = pid then it.qty else 0) + sumQtyItems l pid := by
  simp [sumQtyItems]

theorem applyIncs_eq_map :
    ∀ (L : List OrderItem) (ps : List Product),
      applyIncs L ps = ps.map (fun p =>
        { p with stock := p.stock + sumQtyItems L p.id,
                 soldCount := p.soldCount - sumQtyItems L p.id })
  | [], ps => by
    have h : ∀ p : Product,
        ({ p with stock := p.stock + sumQtyItems [] p.id,
                  soldCount := p.soldCount - sumQtyItems [] p.id } : Product) = p := by
      intro p
      cases p
      simp [sumQtyItems]
    simp only [applyIncs, List.foldl_nil]
    rw [List.map_congr_left (fun p _ => h p), List.map_id' ps]
  | it :: L, ps => by
    have step : applyIncs (it :: L) ps =
        applyIncs L (releaseStock ps it.productId it.qty) := rfl
    rw [step, applyIncs_eq_map L, releaseStock_applied, List.map_map]
    apply List.map_congr_left
    intro p _
    by_cases h : p.id = it.productId
    · simp only [Function.comp, h, beq_self_eq_true, if_true]
      have hq : sumQtyItems (it :: L) it.productId = it.qty + sumQtyItems L it.productId := by
        rw [sumQtyItems_cons, if_pos rfl]
      simp [hq, add_assoc, sub_sub]
    · have hb : (p.id == it.productId) = false := by
        simp [h]
      have hq : sumQtyItems (it :: L) p.id = sumQtyItems L p.id := by
        rw [sumQtyItems_cons, if_neg (fun hh => h hh.symm)]
        simp
      simp [Function.comp, hb, hq]

theorem sumQtyItems_nonneg (L : List OrderItem) (pid : Nat)
    (h : ∀ it ∈ L, 0 ≤ it.qty) : 0 ≤ sumQtyItems L pid := by
  induction L with
  | nil => simp [sumQtyItems]
  | cons it l ih =>
    rw [sumQtyItems_cons]
    have h1 : 0 ≤ (if it.productId = pid then it.qty else 0) := by
      split
      · exact h it (List.mem_cons_self it l)
      · exact le_refl 0
    have h2 : 0 ≤ sumQtyItems l pid :=
      ih (fun x hx => h x (List.mem_cons_of_mem it hx))
    exact add_nonneg h1 h2

theorem sumQty_eq_zero (L : List (CartItem × Option Product)) (pid : Nat)
    (h : ∀ e ∈ L, e.1.productId ≠ pid) : sumQty L pid = 0 := by
  induction L with
  | nil => simp [sumQty]
  | cons e l ih =>
    rw [sumQty_cons, if_neg (h e (List.mem_cons_self e l))]
    rw [ih (fun x hx => h x (List.mem_cons_of_mem e hx))]
    simp

theorem sumQty_of_nodup (L : List (CartItem × Option Product))
    (hnd : (L.map (fun e => e.1.productId)).Nodup) (e : CartItem × Option Product)
    (he : e ∈ L) : sumQty L e.1.productId = e.1.qty := by
  induction L with
  | nil => cases he
  | cons x l ih =>
    rcases List.mem_cons.mp he with heq | hmem
    · subst heq
      rw [sumQty_cons, if_pos rfl]
      have hz : sumQty l e.1.productId = 0 := by
        apply sumQty_eq_zero
        intro y hy hcontra
        have : e.1.productId ∈ l.map (fun z => z.1.productId) :=
          List.mem_map.mpr ⟨y, hy, hcontra⟩
        exact (List.nodup_cons.mp hnd).1 this
      rw [hz, add_zero]
    · have hne : x.1.productId ≠ e.1.productId := by
        intro hcontra
        have : x.1.productId ∈ l.map (fun z => z.1.productId) :=
          List.mem_map.mpr ⟨e, hmem, hcontra.symm⟩
        exact (List.nodup_cons.mp hnd).1 this
      rw [sumQty_cons, if_neg hne, ih (List.nodup_cons.mp hnd).2 hmem]
      simp

/-! ## Grouping invariant: the JS `Map` grouping partitions the item list by
shop, in first-occurrence key order -/

/-- Invariant of the grouping fold: keys are distinct, each group holds
exactly the processed items of its shop (in order), and the keys are exactly
the shops occurring among the processed items. -/
def GroupInv (processed : List (CartItem × Option Product))
    (gs : List (Nat × List (CartItem × Option Product))) : Prop :=
  (gs.map (fun g => g.1)).Nodup ∧
  (∀ g ∈ gs, g.2 = processed.filter (fun e => itemShopId e == g.1)) ∧
  (∀ s : Nat, (∃ g ∈ gs, g.1 = s) ↔ ∃ e ∈ processed, itemShopId e = s)

theorem insertGroup_fst (gs : List (Nat × List (CartItem × Option Product)))
    (k : Nat) (e : CartItem × Option Product) :
    (insertGroup gs k e).map (fun g => g.1) = gs.map (fun g => g.1) ∨
    (insertGroup gs k e).map (fun g => g.1) = gs.map (fun g => g.1) ++ [k] := by
  unfold insertGroup
  split
  · left
    rw [List.map_map]
    apply List.map_congr_left
    intro g _
    by_cases h : g.1 = k
    · simp [Function.comp, h]
    · simp [Function.comp, h]
  · right
    simp

theorem groupInv_step (processed : List (CartItem × Option Product))
    (gs : List (Nat × List (CartItem × Option Product)))
    (e : CartItem × Option Product) (h : GroupInv processed gs) :
    GroupInv (processed ++ [e]) (insertGroup gs (itemShopId e) e) := by
  obtain ⟨hnd, hval, hkey⟩ := h
  unfold insertGroup
  by_cases hany : gs.any (fun g => g.1 == itemShopId e) = true
  · rw [if_pos hany]
    obtain ⟨g0, hg0, hg0k⟩ := List.any_eq_true.mp hany
    have hg0k : g0.1 = itemShopId e := by simpa using hg0k
    refine ⟨?_, ?_, ?_⟩
    · have : (gs.map (fun g =>
          if g.1 == itemShopId e then (g.1, g.2 ++ [e]) else g)).map (fun g => g.1)
          = gs.map (fun g => g.1) := by
        rw [List.map_map]
        apply List.map_congr_left
        intro g _
        by_cases hk : g.1 = itemShopId e
        · simp [Function.comp, hk]
        · simp [Function.comp, hk]
      rw [this]
      exact hnd
    · intro g' hg'
      obtain ⟨g, hg, hfg⟩ := List.mem_map.mp hg'
      by_cases hk : g.1 = itemShopId e
      · rw [if_pos (by simpa using hk)] at hfg
        subst hfg
        simp only
        rw [List.filter_append, hval g hg]
        congr 1
        simp [hk]
      · rw [if_neg (by simpa using hk)] at hfg
        subst hfg
        rw [List.filter_append, hval g hg]
        have hb : (itemShopId e == g.1) = false := by
          rw [beq_eq_false_iff_ne]
          intro hcontra
          exact hk hcontra.symm
        simp [hb]
    · intro s
      have hiff := hkey s
      constructor
      · intro ⟨g', hg', hg's⟩
        obtain ⟨g, hg, hfg⟩ := List.mem_map.mp hg'
        have hg1 : g'.1 = g.1 := by
          by_cases hk : g.1 = itemShopId e
          · rw [if_pos (by simpa using hk)] at hfg; subst hfg; rfl
          · rw [if_neg (by simpa using hk)] at hfg; subst hfg; rfl
        obtain ⟨e', he', he's⟩ := hiff.mp ⟨g, hg, by rw [← hg1, hg's]⟩
        exact ⟨e', List.mem_append_left _ he', he's⟩
      · intro ⟨e', he', he's⟩
        rcases List.mem_append.mp he' with h1 | h1
        · obtain ⟨g, hg, hgs⟩ := hiff.mpr ⟨e', h1, he's⟩
          refine ⟨if g.1 == itemShopId e then (g.1, g.2 ++ [e]) else g,
            List.mem_map.mpr ⟨g, hg, rfl⟩, ?_⟩
          by_cases hk : g.1 = itemShopId e
          · rw [if_pos (by simpa using hk)]; exact hgs
          · rw [if_neg (by simpa using hk)]; exact hgs
        · have he : e' = e := by simpa using h1
          rw [he] at he's
          refine ⟨if g0.1 == itemShopId e then (g0.1, g0.2 ++ [e]) else g0,
            List.mem_map.mpr ⟨g0, hg0, rfl⟩, ?_⟩
          rw [if_pos (by simpa using hg0k)]
          rw [← he's, hg0k]
  · rw [if_neg hany]
    have hnotk : ∀ g ∈ gs, g.1 ≠ itemShopId e := by
      intro g hg hcontra
      exact hany (List.any_eq_true.mpr ⟨g, hg, by simpa using hcontra⟩)
    refine ⟨?_, ?_, ?_⟩
    · rw [List.map_append]
      simp only [List.map_cons, List.map_nil]
      rw [List.nodup_append]
      refine ⟨hnd, List.nodup_singleton _, ?_⟩
      intro a ha hb
      have hak : a = itemShopId e := by simpa using hb
      obtain ⟨g, hg, hga⟩ := List.mem_map.mp ha
      exact hnotk g hg (by rw [hga, hak])
    · intro g' hg'
      rcases List.mem_append.mp hg' with h1 | h1
      · rw [List.filter_append, hval g' h1]
        have hb : (itemShopId e == g'.1) = false := by
          rw [beq_eq_false_iff_ne]
          intro hcontra
          exact hnotk g' h1 hcontra.symm
        simp [hb]
      · have : g' = (itemShopId e, [e]) := by simpa using h1
        subst this
        simp only
        rw [List.filter_append]
        have h2 : [e].filter (fun x => itemShopId x == itemShopId e) = [e] := by
          simp
        have h3 : processed.filter (fun x => itemShopId x == itemShopId e) = [] := by
          apply List.filter_eq_nil_iff.mpr
          intro x hx hcontra
          have hxs : itemShopId x = itemShopId e := by simpa using hcontra
          obtain ⟨g, hg, hgs⟩ := (hkey (itemShopId e)).mpr ⟨x, hx, hxs⟩
          exact hnotk g hg hgs
        rw [h2, h3, List.nil_append]
    · intro s
      have hiff := hkey s
      constructor
      · intro ⟨g', hg', hg's⟩
        rcases List.mem_append.mp hg' with h1 | h1
        · obtain ⟨e', he', he's⟩ := hiff.mp ⟨g', h1, hg's⟩
          exact ⟨e', List.mem_append_left _ he', he's⟩
        · have : g' = (itemShopId e, [e]) := by simpa using h1
          subst this
          exact ⟨e, List.mem_append_right _ (List.mem_singleton_self e), hg's⟩
      · intro ⟨e', he', he's⟩
        rcases List.mem_append.mp he' with h1 | h1
        · obtain ⟨g, hg, hgs⟩ := hiff.mpr ⟨e', h1, he's⟩
          exact ⟨g, List.mem_append_left _ hg, hgs⟩
        · have he : e' = e := by simpa using h1
          rw [he] at he's
          exact ⟨(itemShopId e, [e]),
            List.mem_append_right _ (List.mem_singleton_self _), he's⟩

theorem groupInv_foldl :
    ∀ (l processed : List (CartItem × Option Product))
      (gs : List (Nat × List (CartItem × Option Product))),
      GroupInv processed gs →
      GroupInv (processed ++ l)
        (l.foldl (fun gs e => insertGroup gs (itemShopId e) e) gs)
  | [], processed, gs, h => by simpa using h
  | e :: l, processed, gs, h => by
    have step := groupInv_step processed gs e h
    have ih := groupInv_foldl l (processed ++ [e]) _ step
    simpa using ih

theorem groupInv_nil : GroupInv [] [] := by
  refine ⟨List.nodup_nil, ?_, ?_⟩
  · intro g hg
    cases hg
  · intro s
    constructor
    · intro ⟨g, hg, _⟩
      cases hg
    · intro ⟨e, he, _⟩
      cases he

theorem groupByShop_inv (items : List (CartItem × Option Product)) :
    GroupInv items (groupByShop items) := by
  have h := groupInv_foldl items [] [] groupInv_nil
  simpa [groupByShop] using h

/-! ## The grouped items are a permutation of the processed items -/

theorem insertGroup_join (k : Nat) (e : CartItem × Option Product) :
    ∀ (gs : List (Nat × List (CartItem × Option Product))),
      (gs.map (fun g => g.1)).Nodup →
      (joinGroups (insertGroup gs k e)).Perm (joinGroups gs ++ [e])
  | gs, hnd => by
    unfold insertGroup
    by_cases hany : gs.any (fun g => g.1 == k) = true
    · rw [if_pos hany]
      induction gs with
      | nil => simp at hany
      | cons g rest ih =>
        have hnd' : (g.1 :: rest.map (fun g => g.1)).Nodup := by simpa using hnd
        obtain ⟨hg1, hndr⟩ := List.nodup_cons.mp hnd'
        by_cases hk : g.1 = k
        · have hrest : ∀ g' ∈ rest, (g'.1 == k) = false := by
            intro g' hg'
            rw [beq_eq_false_iff_ne]
            intro hcontra
            refine hg1 (List.mem_map.mpr ⟨g', hg', ?_⟩)
            show g'.1 = g.1
            rw [hcontra, hk]
          have hmap : rest.map (fun g' =>
              if g'.1 == k then (g'.1, g'.2 ++ [e]) else g') = rest := by
            have hpt : ∀ g' ∈ rest,
                (if g'.1 == k then (g'.1, g'.2 ++ [e]) else g') = g' := by
              intro g' hg'
              rw [hrest g' hg']
              simp
            rw [List.map_congr_left hpt, List.map_id' rest]
          have hcond : (g.1 == k) = true := by simpa using hk
          have hfull : (g :: rest).map (fun g' =>
              if g'.1 == k then (g'.1, g'.2 ++ [e]) else g')
              = (g.1, g.2 ++ [e]) :: rest := by
            rw [List.map_cons, hmap]
            congr 1
            simp [hcond]
          rw [hfull]
          show ((g.2 ++ [e]) ++ joinGroups rest).Perm
            ((g.2 ++ joinGroups rest) ++ [e])
          rw [List.append_assoc, List.append_assoc]
          exact List.Perm.append_left g.2 List.perm_append_comm
        · have hanyr : rest.any (fun g' => g'.1 == k) = true := by
            rcases List.any_eq_true.mp hany with ⟨g', hg', hgk⟩
            rcases List.mem_cons.mp hg' with h1 | h1
            · exact absurd (by simpa using (h1 ▸ hgk : (g.1 == k) = true)) hk
            · exact List.any_eq_true.mpr ⟨g', h1, hgk⟩
          have ihr := ih hndr hanyr
          have hcond : (g.1 == k) = false := by
            rw [beq_eq_false_iff_ne]
            exact hk
          have hfull : (g :: rest).map (fun g' =>
              if g'.1 == k then (g'.1, g'.2 ++ [e]) else g')
              = g :: rest.map (fun g' =>
                  if g'.1 == k then (g'.1, g'.2 ++ [e]) else g') := by
            rw [List.map_cons]
            congr 1
            simp [hcond]
          rw [hfull]
          show (g.2 ++ joinGroups (rest.map (fun g' =>
              if g'.1 == k then (g'.1, g'.2 ++ [e]) else g'))).Perm
            ((g.2 ++ joinGroups rest) ++ [e])
          rw [List.append_assoc]
          exact List.Perm.append_left g.2 ihr
    · rw [if_neg hany]
      have h : joinGroups (gs ++ [(k, [e])]) = joinGroups gs ++ [e] := by
        unfold joinGroups
        rw [List.flatMap_append]
        rfl
      rw [h]

theorem fold_join_perm :
    ∀ (l processed : List (CartItem × Option Product))
      (gs : List (Nat × List (CartItem × Option Product))),
      GroupInv processed gs →
      (joinGroups (l.foldl (fun gs e => insertGroup gs (itemShopId e) e) gs)).Perm
        (joinGroups gs ++ l)
  | [], processed, gs, _ => by simp
  | e :: l, processed, gs, h => by
    have hstep := groupInv_step processed gs e h
    have ih := fold_join_perm l (processed ++ [e]) _ hstep
    have hins := insertGroup_join (itemShopId e) e gs h.1
    have h1 : (joinGroups ((e :: l).foldl
        (fun gs e => insertGroup gs (itemShopId e) e) gs)).Perm
        (joinGroups (insertGroup gs (itemShopId e) e) ++ l) := by simpa using ih
    have h3 := h1.trans (List.Perm.append_right l hins)
    rw [List.append_assoc] at h3
    simpa using h3

theorem groupByShop_join_perm (items : List (CartItem × Option Product)) :
    (joinGroups (groupByShop items)).Perm items := by
  have h := fold_join_perm items [] [] groupInv_nil
  simpa [groupByShop, joinGroups] using h

theorem sumQty_perm {L1 L2 : List (CartItem × Option Product)}
    (h : L1.Perm L2) (pid : Nat) : sumQty L1 pid = sumQty L2 pid := by
  unfold sumQty
  exact List.Perm.sum_eq
    (h.map (fun e => if e.1.productId = pid then e.1.qty else 0))

/-! ## Characterizing the checkout transaction folds -/

theorem pif_products (s oid : Nat) :
    ∀ (gItems : List (CartItem × Option Product)) (db : DB),
      (gItems.foldl (processItem s oid) db).products = applyDecs gItems db.products
  | [], _ => rfl
  | e :: gItems, db => by
    rw [List.foldl_cons]
    exact pif_products s oid gItems _

theorem pif_orderItems (s oid : Nat) :
    ∀ (gItems : List (CartItem × Option Product)) (db : DB),
      (gItems.foldl (processItem s oid) db).orderItems =
        db.orderItems ++ mkOrderItems s oid db.nextOrderItemId gItems
  | [], db => by simp [mkOrderItems]
  | e :: gItems, db => by
    rw [List.foldl_cons, pif_orderItems s oid gItems]
    show (db.orderItems ++ _) ++ _ = _
    rw [List.append_assoc]
    rfl

theorem pif_nextOrderItemId (s oid : Nat) :
    ∀ (gItems : List (CartItem × Option Product)) (db : DB),
      (gItems.foldl (processItem s oid) db).nextOrderItemId =
        db.nextOrderItemId + gItems.length
  | [], _ => rfl
  | e :: gItems, db => by
    rw [List.foldl_cons, pif_nextOrderItemId s oid gItems]
    show db.nextOrderItemId + 1 + gItems.length = _
    rw [List.length_cons, Nat.add_assoc, Nat.add_comm 1]

theorem pif_rest (s oid : Nat) :
    ∀ (gItems : List (CartItem × Option Product)) (db : DB),
      (gItems.foldl (processItem s oid) db).orders = db.orders ∧
      (gItems.foldl (processItem s oid) db).carts = db.carts ∧
      (gItems.foldl (processItem s oid) db).cartItems = db.cartItems ∧
      (gItems.foldl (processItem s oid) db).shops = db.shops ∧
      (gItems.foldl (processItem s oid) db).nextOrderId = db.nextOrderId ∧
      (gItems.foldl (processItem s oid) db).nextCartId = db.nextCartId ∧
      (gItems.foldl (processItem s oid) db).nextCartItemId = db.nextCartItemId
  | [], _ => ⟨rfl, rfl, rfl, rfl, rfl, rfl, rfl⟩
  | e :: gItems, db => by
    rw [List.foldl_cons]
    exact pif_rest s oid gItems _

theorem applyDecs_append (L1 L2 : List (CartItem × Option Product))
    (ps : List Product) :
    applyDecs (L1 ++ L2) ps = applyDecs L2 (applyDecs L1 ps) := by
  unfold applyDecs
  rw [List.foldl_append]

theorem processGroup_foldl (uid : Nat) (addr : String) (now : Nat) :
    ∀ (groups : List (Nat × List (CartItem × Option Product))) (db : DB)
      (created : List Order),
      (groups.foldl (processGroup uid addr now) (db, created)).2 =
        created ++ mkOrders uid addr now db.nextOrderId groups ∧
      (groups.foldl (processGroup uid addr now) (db, created)).1.products =
        applyDecs (joinGroups groups) db.products ∧
      (groups.foldl (processGroup uid addr now) (db, created)).1.orders =
        db.orders ++ mkOrders uid addr now db.nextOrderId groups ∧
      (groups.foldl (processGroup uid addr now) (db, created)).1.orderItems =
        db.orderItems ++ mkAllItems db.nextOrderId db.nextOrderItemId groups ∧
      (groups.foldl (processGroup uid addr now) (db, created)).1.nextOrderId =
        db.nextOrderId + groups.length ∧
      (groups.foldl (processGroup uid addr now) (db, created)).1.nextOrderItemId =
        db.nextOrderItemId + (joinGroups groups).length ∧
      (groups.foldl (processGroup uid addr now) (db, created)).1.carts = db.carts ∧
      (groups.foldl (processGroup uid addr now) (db, created)).1.cartItems =
        db.cartItems ∧
      (groups.foldl (processGroup uid addr now) (db, created)).1.shops = db.shops ∧
      (groups.foldl (processGroup uid addr now) (db, created)).1.nextCartId =
        db.nextCartId ∧
      (groups.foldl (processGroup uid addr now) (db, created)).1.nextCartItemId =
        db.nextCartItemId
  | [], db, created => by
    refine ⟨?_, ?_, ?_, ?_, ?_, ?_, rfl, rfl, rfl, rfl, rfl⟩ <;>
      simp [mkOrders, mkAllItems, joinGroups, applyDecs]
  | (s, gi) :: groups, db, created => by
    rw [List.foldl_cons]
    have hred : processGroup uid addr now (db, created) (s, gi) =
        (gi.foldl (processItem s db.nextOrderId)
          { db with
            orders := db.orders ++ [mkOrder uid addr now db.nextOrderId s gi],
            nextOrderId := db.nextOrderId + 1 },
         created ++ [mkOrder uid addr now db.nextOrderId s gi]) := rfl
    rw [hred]
    have ih := processGroup_foldl uid addr now groups
      (gi.foldl (processItem s db.nextOrderId)
        { db with
          orders := db.orders ++ [mkOrder uid addr now db.nextOrderId s gi],
          nextOrderId := db.nextOrderId + 1 })
      (created ++ [mkOrder uid addr now db.nextOrderId s gi])
    obtain ⟨ih2, ihp, iho, ihoi, ihno, ihni, ihc, ihci, ihs, ihnc, ihnci⟩ := ih
    have hp := pif_products s db.nextOrderId gi
      { db with
        orders := db.orders ++ [mkOrder uid addr now db.nextOrderId s gi],
        nextOrderId := db.nextOrderId + 1 }
    have hoi := pif_orderItems s db.nextOrderId gi
      { db with
        orders := db.orders ++ [mkOrder uid addr now db.nextOrderId s gi],
        nextOrderId := db.nextOrderId + 1 }
    have hni := pif_nextOrderItemId s db.nextOrderId gi
      { db with
        orders := db.orders ++ [mkOrder uid addr now db.nextOrderId s gi],
        nextOrderId := db.nextOrderId + 1 }
    obtain ⟨hro, hrc, hrci, hrs, hrno, hrnc, hrnci⟩ := pif_rest s db.nextOrderId gi
      { db with
        orders := db.orders ++ [mkOrder uid addr now db.nextOrderId s gi],
        nextOrderId := db.nextOrderId + 1 }
    refine ⟨?_, ?_, ?_, ?_, ?_, ?_, ?_, ?_, ?_, ?_, ?_⟩
    · rw [ih2, hrno]
      show created ++ [mkOrder uid addr now db.nextOrderId s gi] ++
          mkOrders uid addr now (db.nextOrderId + 1) groups = _
      rw [List.append_assoc]
      rfl
    · rw [ihp, hp]
      show applyDecs (joinGroups groups) (applyDecs gi db.products) = _
      rw [show joinGroups ((s, gi) :: groups) = gi ++ joinGroups groups from rfl,
        applyDecs_append]
    · rw [iho, hro, hrno]
      show db.orders ++ [mkOrder uid addr now db.nextOrderId s gi] ++
          mkOrders uid addr now (db.nextOrderId + 1) groups = _
      rw [List.append_assoc]
      rfl
    · rw [ihoi, hoi, hrno, hni]
      show db.orderItems ++ mkOrderItems s db.nextOrderId db.nextOrderItemId gi ++
          mkAllItems (db.nextOrderId + 1) (db.nextOrderItemId + gi.length)
            groups = _
      rw [List.append_assoc]
      rfl
    · rw [ihno, hrno]
      show db.nextOrderId + 1 + groups.length = _
      rw [List.length_cons]
      omega
    · rw [ihni, hni]
      show db.nextOrderItemId + gi.length + (joinGroups groups).length = _
      rw [show joinGroups ((s, gi) :: groups) = gi ++ joinGroups groups from rfl,
        List.length_append]
      omega
    · rw [ihc, hrc]
    · rw [ihci, hrci]
    · rw [ihs, hrs]
    · rw [ihnc, hrnc]
    · rw [ihnci, hrnci]

/-! ## Facts about the created orders and order items -/

theorem mkOrders_length (uid : Nat) (addr : String) (now : Nat) :
    ∀ (gs : List (Nat × List (CartItem × Option Product))) (oidStart : Nat),
      (mkOrders uid addr now oidStart gs).length = gs.length
  | [], _ => rfl
  | g :: gs, oidStart => by
    simp [mkOrders, mkOrders_length uid addr now gs]

theorem mkOrders_rel (uid : Nat) (addr : String) (now : Nat) :
    ∀ (gs : List (Nat × List (CartItem × Option Product))) (oidStart : Nat),
      List.Forall₂
        (fun (o : Order) (g : Nat × List (CartItem × Option Product)) =>
          o.totalAmount = groupTotal g.2 ∧ o.code = mkOrderCode now g.1 ∧
          o.userId = uid ∧ o.paymentStatus = .PAID ∧ o.addressSnap = addr)
        (mkOrders uid addr now oidStart gs) gs
  | [], _ => List.Forall₂.nil
  | _ :: gs, oidStart =>
    List.Forall₂.cons ⟨rfl, rfl, rfl, rfl, rfl⟩
      (mkOrders_rel uid addr now gs (oidStart + 1))

theorem mkOrders_id_bounds (uid : Nat) (addr : String) (now : Nat) :
    ∀ (gs : List (Nat × List (CartItem × Option Product))) (oidStart : Nat)
      (o : Order), o ∈ mkOrders uid addr now oidStart gs →
      oidStart ≤ o.id ∧ o.id < oidStart + gs.length
  | [], _, o, ho => by cases ho
  | g :: gs, oidStart, o, ho => by
    rcases List.mem_cons.mp ho with h1 | h1
    · subst h1
      exact ⟨le_refl _, by simp [mkOrder]⟩
    · have := mkOrders_id_bounds uid addr now gs (oidStart + 1) o h1
      constructor
      · omega
      · rw [List.length_cons]
        omega

theorem mkOrderItems_orderId (s oid : Nat) :
    ∀ (st : Nat) (gi : List (CartItem × Option Product)) (oi : OrderItem),
      oi ∈ mkOrderItems s oid st gi → oi.orderId = oid
  | st, [], oi, hoi => by cases hoi
  | st, e :: gi, oi, hoi => by
    rcases List.mem_cons.mp hoi with h1 | h1
    · subst h1
      rfl
    · exact mkOrderItems_orderId s oid (st + 1) gi oi h1

theorem mkAllItems_orderId_lb :
    ∀ (gs : List (Nat × List (CartItem × Option Product)))
      (oidStart oiid : Nat) (oi : OrderItem),
      oi ∈ mkAllItems oidStart oiid gs → oidStart ≤ oi.orderId
  | [], _, _, oi, hoi => by cases hoi
  | g :: gs, oidStart, oiid, oi, hoi => by
    rcases List.mem_append.mp hoi with h1 | h1
    · rw [mkOrderItems_orderId g.1 oidStart oiid g.2 oi h1]
    · have := mkAllItems_orderId_lb gs (oidStart + 1) (oiid + g.2.length) oi h1
      omega

theorem mkOrderItems_filter_self (s oid st : Nat)
    (gi : List (CartItem × Option Product)) :
    (mkOrderItems s oid st gi).filter (fun oi => oi.orderId == oid) =
      mkOrderItems s oid st gi := by
  apply List.filter_eq_self.mpr
  intro oi hoi
  rw [mkOrderItems_orderId s oid st gi oi hoi]
  simp

theorem mkOrderItems_filter_ne (s oid st : Nat)
    (gi : List (CartItem × Option Product)) (x : Nat) (h : x ≠ oid) :
    (mkOrderItems s oid st gi).filter (fun oi => oi.orderId == x) = [] := by
  apply List.filter_eq_nil_iff.mpr
  intro oi hoi
  rw [mkOrderItems_orderId s oid st gi oi hoi]
  simp
  exact fun hc => h hc.symm

theorem mkOrderItems_sum (s oid : Nat) :
    ∀ (st : Nat) (gi : List (CartItem × Option Product)),
      ((mkOrderItems s oid st gi).map (fun oi => oi.qty * oi.priceSnap)).sum =
        (gi.map (fun e => e.1.qty * prodPrice e.2)).sum
  | _, [] => rfl
  | st, e :: gi => by
    simp only [mkOrderItems, List.map_cons, List.sum_cons]
    rw [mkOrderItems_sum s oid (st + 1) gi]

theorem mkOrders_items_sum (uid : Nat) (addr : String) (now : Nat) :
    ∀ (gs : List (Nat × List (CartItem × Option Product))) (oidStart oiid : Nat),
      (∀ g ∈ gs, ∀ e ∈ g.2, prodPrice e.2 = e.1.priceSnapshot) →
      ∀ o ∈ mkOrders uid addr now oidStart gs,
        (((mkAllItems oidStart oiid gs).filter
            (fun oi => oi.orderId == o.id)).map
          (fun oi => oi.qty * oi.priceSnap)).sum = o.totalAmount
  | [], _, _, _, o, ho => by cases ho
  | g :: gs, oidStart, oiid, hpa, o, ho => by
    rcases List.mem_cons.mp ho with h1 | h1
    · subst h1
      show (((mkOrderItems g.1 oidStart oiid g.2 ++
          mkAllItems (oidStart + 1) (oiid + g.2.length) gs).filter
            (fun oi => oi.orderId == oidStart)).map
          (fun oi => oi.qty * oi.priceSnap)).sum = groupTotal g.2
      rw [List.filter_append, mkOrderItems_filter_self]
      have hrest : (mkAllItems (oidStart + 1) (oiid + g.2.length) gs).filter
          (fun oi => oi.orderId == oidStart) = [] := by
        apply List.filter_eq_nil_iff.mpr
        intro oi hoi
        have := mkAllItems_orderId_lb gs (oidStart + 1) (oiid + g.2.length) oi hoi
        simp
        omega
      rw [hrest, List.append_nil, mkOrderItems_sum, groupTotal_eq_sum]
      apply congrArg
      apply List.map_congr_left
      intro e he
      rw [hpa g (List.mem_cons_self g gs) e he]
    · have hid := mkOrders_id_bounds uid addr now gs (oidStart + 1) o h1
      show (((mkOrderItems g.1 oidStart oiid g.2 ++
          mkAllItems (oidStart + 1) (oiid + g.2.length) gs).filter
            (fun oi => oi.orderId == o.id)).map
          (fun oi => oi.qty * oi.priceSnap)).sum = o.totalAmount
      rw [List.filter_append,
        mkOrderItems_filter_ne g.1 oidStart oiid g.2 o.id (by omega),
        List.nil_append]
      exact mkOrders_items_sum uid addr now gs (oidStart + 1)
        (oiid + g.2.length)
        (fun g' hg' => hpa g' (List.mem_cons_of_mem g hg')) o h1

/-! ## Inversion of the checkout validation -/

theorem enrich_mem (db : DB) (items : List CartItem)
    (e : CartItem × Option Product) :
    e ∈ enrich db items ↔ ∃ it ∈ items, e = (it, findProduct db it.productId) := by
  unfold enrich
  rw [List.mem_map]
  constructor
  · intro ⟨it, hit, he⟩
    exact ⟨it, hit, he.symm⟩
  · intro ⟨it, hit, he⟩
    exact ⟨it, hit, he.symm⟩

theorem enrich_snd (db : DB) (items : List CartItem)
    (e : CartItem × Option Product) (he : e ∈ enrich db items) :
    e.2 = findProduct db e.1.productId := by
  obtain ⟨it, _, heq⟩ := (enrich_mem db items e).mp he
  subst heq
  rfl

theorem validateItems_ok :
    ∀ (L : List (CartItem × Option Product)), validateItems L = .ok () →
      ∀ e ∈ L, ∃ p, e.2 = some p ∧ p.isActive = true ∧ ¬ p.stock < e.1.qty
  | [], _, e, he => by cases he
  | (it, none) :: rest, h, e, he => by
    simp [validateItems] at h
  | (it, some p) :: rest, h, e, he => by
    unfold validateItems at h
    by_cases ha : p.isActive
    · rw [if_neg (by simp [ha])] at h
      by_cases hs : p.stock < it.qty
      · rw [if_pos hs] at h
        cases h
      · rw [if_neg hs] at h
        rcases List.mem_cons.mp he with h1 | h1
        · subst h1
          exact ⟨p, rfl, ha, hs⟩
        · exact validateItems_ok rest h e h1
    · rw [if_pos (by simp [ha])] at h
      cases h

theorem validateItems_err_stock :
    ∀ (L : List (CartItem × Option Product)) (pid : Nat),
      validateItems L = .error (.insufficientStock pid) →
      ∃ e ∈ L, e.1.productId = pid ∧
        ∃ p, e.2 = some p ∧ p.isActive = true ∧ p.stock < e.1.qty
  | [], pid, h => by cases h
  | (it, none) :: rest, pid, h => by
    simp [validateItems] at h
  | (it, some p) :: rest, pid, h => by
    unfold validateItems at h
    by_cases ha : p.isActive
    · rw [if_neg (by simp [ha])] at h
      by_cases hs : p.stock < it.qty
      · rw [if_pos hs] at h
        have : pid = it.productId := by
          cases h
          rfl
        subst this
        exact ⟨(it, some p), List.mem_cons_self _ _, rfl, p, rfl, ha, hs⟩
      · rw [if_neg hs] at h
        obtain ⟨e, he, hrest⟩ := validateItems_err_stock rest pid h
        exact ⟨e, List.mem_cons_of_mem _ he, hrest⟩
    · rw [if_pos (by simp [ha])] at h
      cases h

theorem validateItems_err_unavail :
    ∀ (L : List (CartItem × Option Product)) (pid : Nat),
      validateItems L = .error (.productUnavailable pid) →
      ∃ e ∈ L, e.1.productId = pid ∧
        (e.2 = none ∨ ∃ p, e.2 = some p ∧ p.isActive = false)
  | [], pid, h => by cases h
  | (it, none) :: rest, pid, h => by
    have : pid = it.productId := by
      cases h
      rfl
    subst this
    exact ⟨(it, none), List.mem_cons_self _ _, rfl, Or.inl rfl⟩
  | (it, some p) :: rest, pid, h => by
    unfold validateItems at h
    by_cases ha : p.isActive
    · rw [if_neg (by simp [ha])] at h
      by_cases hs : p.stock < it.qty
      · rw [if_pos hs] at h
        cases h
      · rw [if_neg hs] at h
        obtain ⟨e, he, hrest⟩ := validateItems_err_unavail rest pid h
        exact ⟨e, List.mem_cons_of_mem _ he, hrest⟩
    · rw [if_pos (by simp [ha])] at h
      have : pid = it.productId := by
        cases h
        rfl
      subst this
      refine ⟨(it, some p), List.mem_cons_self _ _, rfl, Or.inr ⟨p, rfl, ?_⟩⟩
      simpa using ha

theorem checkoutValidate_ok_inv (db : DB) (uid : Nat) (sel : List Nat)
    (snap : CheckoutSnap) (h : checkoutValidate db uid sel = .ok snap) :
    ∃ cart, findCartByUser db uid = some cart ∧
      snap.cartId = cart.id ∧
      snap.items = enrich db (selectedCartItems db cart.id sel) ∧
      (selectedCartItems db cart.id sel).isEmpty = false ∧
      validateItems (enrich db (selectedCartItems db cart.id sel)) = .ok () := by
  unfold checkoutValidate at h
  cases hc : findCartByUser db uid with
  | none => rw [hc] at h; cases h
  | some cart =>
    rw [hc] at h
    refine ⟨cart, rfl, ?_⟩
    simp only at h
    split at h
    · cases h
    · split at h
      · cases h
      · split at h
        · cases h
        · rename_i hne
          cases hv : validateItems (enrich db (selectedCartItems db cart.id sel)) with
          | error e => rw [hv] at h; cases h
          | ok u =>
            cases u
            rw [hv] at h
            cases h
            exact ⟨rfl, rfl, by simpa using hne, rfl⟩

theorem checkoutValidate_err_stock (db : DB) (uid : Nat) (sel : List Nat)
    (pid : Nat)
    (h : checkoutValidate db uid sel = .error (.insufficientStock pid)) :
    ∃ cart, findCartByUser db uid = some cart ∧
      ∃ it ∈ selectedCartItems db cart.id sel, it.productId = pid ∧
        ∃ p, findProduct db pid = some p ∧ p.isActive = true ∧
          p.stock < it.qty := by
  unfold checkoutValidate at h
  cases hc : findCartByUser db uid with
  | none => rw [hc] at h; cases h
  | some cart =>
    rw [hc] at h
    refine ⟨cart, rfl, ?_⟩
    simp only at h
    split at h
    · cases h
    · split at h
      · cases h
      · split at h
        · cases h
        · cases hv : validateItems (enrich db (selectedCartItems db cart.id sel)) with
          | ok u => rw [hv] at h; cases h
          | error e =>
            rw [hv] at h
            cases h
            obtain ⟨e', he', hpid, p, hp2, hact, hstock⟩ :=
              validateItems_err_stock _ pid hv
            obtain ⟨it, hit, heq⟩ := (enrich_mem _ _ _).mp he'
            subst heq
            refine ⟨it, hit, hpid, p, ?_, hact, hstock⟩
            rw [← hpid]
            exact hp2.symm ▸ rfl

theorem checkoutValidate_err_unavail (db : DB) (uid : Nat) (sel : List Nat)
    (pid : Nat)
    (h : checkoutValidate db uid sel = .error (.productUnavailable pid)) :
    ∃ cart, findCartByUser db uid = some cart ∧
      ∃ it ∈ selectedCartItems db cart.id sel, it.productId = pid ∧
        (findProduct db pid = none ∨
          ∃ p, findProduct db pid = some p ∧ p.isActive = false) := by
  unfold checkoutValidate at h
  cases hc : findCartByUser db uid with
  | none => rw [hc] at h; cases h
  | some cart =>
    rw [hc] at h
    refine ⟨cart, rfl, ?_⟩
    simp only at h
    split at h
    · cases h
    · split at h
      · cases h
      · split at h
        · cases h
        · cases hv : validateItems (enrich db (selectedCartItems db cart.id sel)) with
          | ok u => rw [hv] at h; cases h
          | error e =>
            rw [hv] at h
            cases h
            obtain ⟨e', he', hpid, hcase⟩ :=
              validateItems_err_unavail _ pid hv
            obtain ⟨it, hit, heq⟩ := (enrich_mem _ _ _).mp he'
            subst heq
            refine ⟨it, hit, hpid, ?_⟩
            rw [← hpid]
            rcases hcase with h1 | ⟨p, hp2, hact⟩
            · exact Or.inl (by rw [← h1])
            · exact Or.inr ⟨p, by rw [← hp2], hact⟩

theorem checkout_ok_inv (db : DB) (uid : Nat) (addr : String) (sel : List Nat)
    (now : Nat) (db' : DB) (os : List Order)
    (h : checkout db uid addr sel now = (db', .ok os)) :
    ∃ snap, checkoutValidate db uid sel = .ok snap ∧
      checkoutCommit db uid addr now sel snap = (db', os) := by
  unfold checkout at h
  cases hv : checkoutValidate db uid sel with
  | error e =>
    rw [hv] at h
    have h2 : (Except.error e : Except ApiError (List Order)) = .ok os :=
      congrArg Prod.snd h
    cases h2
  | ok snap =>
    rw [hv] at h
    refine ⟨snap, rfl, ?_⟩
    have h' : (((checkoutCommit db uid addr now sel snap).1,
        Except.ok (checkoutCommit db uid addr now sel snap).2) :
        DB × Except ApiError (List Order)) = (db', Except.ok os) := h
    have h1 : (checkoutCommit db uid addr now sel snap).1 = db' :=
      congrArg Prod.fst h'
    have h2 : (Except.ok (checkoutCommit db uid addr now sel snap).2 :
        Except ApiError (List Order)) = Except.ok os :=
      congrArg Prod.snd h'
    have h3 : (checkoutCommit db uid addr now sel snap).2 = os := by
      injection h2
    rw [← h1, ← h3]

theorem checkout_err_state (db : DB) (uid : Nat) (addr : String)
    (sel : List Nat) (now : Nat) (e : ApiError)
    (h : (checkout db uid addr sel now).2 = .error e) :
    (checkout db uid addr sel now).1 = db ∧
    checkoutValidate db uid sel = .error e := by
  unfold checkout at h ⊢
  cases hv : checkoutValidate db uid sel with
  | error e' =>
    rw [hv] at h
    have h2 : (Except.error e' : Except ApiError (List Order)) = .error e := h
    cases h2
    exact ⟨rfl, rfl⟩
  | ok snap =>
    rw [hv] at h
    have h' : (Except.ok (checkoutCommit db uid addr now sel snap).2 :
        Except ApiError (List Order)) = .error e := h
    cases h'

theorem drainCart_projs (db : DB) (cid : Nat) (sel : List Nat) :
    (drainCart db cid sel).orderItems = db.orderItems ∧
    (drainCart db cid sel).orders = db.orders ∧
    (drainCart db cid sel).products = db.products ∧
    (drainCart db cid sel).carts = db.carts ∧
    (drainCart db cid sel).shops = db.shops := by
  unfold drainCart
  split
  · exact ⟨rfl, rfl, rfl, rfl, rfl⟩
  · exact ⟨rfl, rfl, rfl, rfl, rfl⟩

/-! ## Claim fixtures and theorems -/

/-- Fixture: seller 9 owns shop 1; order 4 (buyer 2) has order item 5 in NEW
for product 7 (qty 2); product 7 has stock 3 and soldCount 7. -/
def dbC1 : DB :=
  { products := [⟨7, 1, "tee", 10, 3, 7, true⟩],
    carts := [], cartItems := [],
    orders := [⟨4, 2, "c4", .PAID, 20, "addr"⟩],
    orderItems := [⟨5, 4, 7, 1, 2, .NEW, "tee", 10⟩],
    shops := [⟨1, 9⟩],
    nextCartId := 1, nextCartItemId := 1, nextOrderId := 10,
    nextOrderItemId := 10 }

/-- **C1.** The claim says every order item moved to CANCELLED — by either
the seller-driven status update or the buyer-driven order cancellation —
has its product's stock incremented and soldCount decremented by the item's
qty in the same atomic unit.  This theorem evaluates the seller-driven path
at a concrete failing input: seller 9 cancels NEW item 5 (qty 2) of product
7; the update succeeds and the item becomes CANCELLED, yet the product
table is completely unchanged (stock stays 3, soldCount stays 7, instead of
the required 5 and 5) — the handler in `seller.fulfillment.js` performs no
stock release at all. -/
theorem sellerCancelDoesNotReleaseStock :
    exceptOk (sellerUpdateStatus dbC1 9 5 .CANCELLED).2 = true ∧
    ((findOrderItem (sellerUpdateStatus dbC1 9 5 .CANCELLED).1 5).map
      (fun it => it.status)) = some .CANCELLED ∧
    (sellerUpdateStatus dbC1 9 5 .CANCELLED).1.products = dbC1.products ∧
    stockOf dbC1 7 = some 3 ∧ soldOf dbC1 7 = some 7 ∧
    stockOf (sellerUpdateStatus dbC1 9 5 .CANCELLED).1 7 = some 3 ∧
    soldOf (sellerUpdateStatus dbC1 9 5 .CANCELLED).1 7 = some 7 := by
  decide

/-- **C10.** A seller status-update request whose target status is not one
of CONFIRMED, SHIPPED, CANCELLED is rejected by input validation before the
shop-ownership lookup or the transition rule runs, for every state, caller
and item — the result is the validation error and the state is returned
untouched. -/
theorem sellerStatusValidationFirst (db : DB) (userId itemId : Nat)
    (toSt : FulfillmentStatus) (h : toSt ∉ SELLER_UPDATE_STATUSES) :
    sellerUpdateStatus db userId itemId toSt = (db, .error .validationError) := by
  cases toSt <;> simp_all [sellerUpdateStatus, SELLER_UPDATE_STATUSES]

/-- **C10 witness.** The validation-first theorem applied at a concrete
input: a seller trying to set item 5 to COMPLETED (and to NEW) is rejected
with the state unchanged, even though the seller owns the item's shop and
the item exists. -/
theorem sellerStatusValidationFirstWitness :
    FulfillmentStatus.COMPLETED ∉ SELLER_UPDATE_STATUSES ∧
    sellerUpdateStatus dbC1 9 5 .COMPLETED = (dbC1, .error .validationError) ∧
    sellerUpdateStatus dbC1 9 5 .NEW = (dbC1, .error .validationError) :=
  ⟨by decide, sellerStatusValidationFirst dbC1 9 5 .COMPLETED (by decide),
    sellerStatusValidationFirst dbC1 9 5 .NEW (by decide)⟩

/-- Fixture: buyer 1's cart 3 holds one item of product 7, qty 1, with cart
`priceSnapshot` 100, while product 7's current price is 150. -/
def dbC2 : DB :=
  { products := [⟨7, 1, "tee", 150, 5, 0, true⟩],
    carts := [⟨3, 1⟩],
    cartItems := [⟨11, 3, 7, 1, 100⟩],
    orders := [], orderItems := [], shops := [⟨1, 9⟩],
    nextCartId := 4, nextCartItemId := 12, nextOrderId := 1,
    nextOrderItemId := 1 }

/-- **C2 counterexample.** The claim says each created order's `totalAmount`
equals the sum of qty × the `priceSnapshot` stored on its order items.  At
checkout of `dbC2` the created order's `totalAmount` is 100 (computed from
the cart item's snapshot), but its stored order item carries
`priceSnap = 150` (the product's current price), so the sum is 150 ≠ 100. -/
theorem totalAmountPriceSnapMismatch :
    ((checkout dbC2 1 "some address" [] 5).2.toOption.map
      (fun os => os.map (fun o => (o.id, o.totalAmount)))) =
      some [(1, (100 : Int))] ∧
    ((((checkout dbC2 1 "some address" [] 5).1.orderItems.filter
        (fun oi => oi.orderId == 1)).map
      (fun oi => oi.qty * oi.priceSnap)).sum = (150 : Int)) ∧
    ¬ ((100 : Int) = 150) := by
  refine ⟨by decide, by decide, by decide⟩

/-- **C2 (amended).** For every successful checkout, each created order's
`totalAmount` equals the sum of qty × `priceSnap` over that order's order
items **provided** every cart item's `priceSnapshot` agrees with its
product's current price (the handler computes the total from the cart
snapshot but stores the live product price as the order item's snapshot;
the two only coincide under that proviso).  `hfresh` is the autoincrement
invariant that existing order items never reference ids the sequence has
not yet produced. -/
theorem totalAmountMatchesCartSnapshots
    (db : DB) (uid : Nat) (addr : String) (sel : List Nat) (now : Nat)
    (db' : DB) (os : List Order)
    (hrun : checkout db uid addr sel now = (db', .ok os))
    (hfresh : ∀ oi ∈ db.orderItems, oi.orderId < db.nextOrderId)
    (hprice : ∀ it ∈ db.cartItems, ∀ p,
      findProduct db it.productId = some p → p.price = it.priceSnapshot) :
    ∀ o ∈ os, o.totalAmount =
      ((db'.orderItems.filter (fun oi => oi.orderId == o.id)).map
        (fun oi => oi.qty * oi.priceSnap)).sum := by
  obtain ⟨snap, hv, hcm⟩ := checkout_ok_inv db uid addr sel now db' os hrun
  obtain ⟨cart, hcart, hcid, hitems, hne, hval⟩ :=
    checkoutValidate_ok_inv db uid sel snap hv
  obtain ⟨hf2, hfp, hfo, hfoi, hfno, hfni, hfc, hfci, hfs, hfnc, hfnci⟩ :=
    processGroup_foldl uid addr now (groupByShop snap.items) db []
  have hcm' : (drainCart ((groupByShop snap.items).foldl
        (processGroup uid addr now) (db, [])).1 snap.cartId sel,
      ((groupByShop snap.items).foldl
        (processGroup uid addr now) (db, [])).2) = (db', os) := hcm
  have hdb' : db' = drainCart ((groupByShop snap.items).foldl
      (processGroup uid addr now) (db, [])).1 snap.cartId sel :=
    (congrArg Prod.fst hcm').symm
  have hos : os = ((groupByShop snap.items).foldl
      (processGroup uid addr now) (db, [])).2 :=
    (congrArg Prod.snd hcm').symm
  intro o ho
  rw [hos, hf2, List.nil_append] at ho
  have hbounds := mkOrders_id_bounds uid addr now (groupByShop snap.items)
    db.nextOrderId o ho
  have hdboi : db'.orderItems = db.orderItems ++
      mkAllItems db.nextOrderId db.nextOrderItemId (groupByShop snap.items) := by
    rw [hdb', (drainCart_projs _ _ _).1, hfoi]
  rw [hdboi, List.filter_append]
  have hold : db.orderItems.filter (fun oi => oi.orderId == o.id) = [] := by
    apply List.filter_eq_nil_iff.mpr
    intro oi hoi
    have := hfresh oi hoi
    simp
    omega
  rw [hold, List.nil_append]
  have hpa : ∀ g ∈ groupByShop snap.items, ∀ e ∈ g.2,
      prodPrice e.2 = e.1.priceSnapshot := by
    intro g hg e he
    have hinv := groupByShop_inv snap.items
    rw [hinv.2.1 g hg] at he
    have hmem : e ∈ snap.items := List.mem_of_mem_filter he
    rw [hitems] at hmem
    have hsnd := enrich_snd db (selectedCartItems db cart.id sel) e hmem
    have hitdb : e.1 ∈ db.cartItems := by
      obtain ⟨it, hit, heq⟩ :=
        (enrich_mem db (selectedCartItems db cart.id sel) e).mp hmem
      have : e.1 = it := by rw [heq]
      rw [this]
      exact List.mem_of_mem_filter hit
    obtain ⟨p, hp2, hact, hstock⟩ := validateItems_ok _ hval e hmem
    rw [hp2]
    show p.price = e.1.priceSnapshot
    apply hprice e.1 hitdb p
    rw [← hsnd]
    exact hp2
  exact (mkOrders_items_sum uid addr now (groupByShop snap.items)
    db.nextOrderId db.nextOrderItemId hpa o ho).symm

/-- Fixture for the C2 witness: like `dbC2` but the cart snapshot agrees
with the product price (both 150). -/
def dbC2w : DB :=
  { dbC2 with cartItems := [⟨11, 3, 7, 1, 150⟩] }

/-- **C2 witness.** The amended theorem applied at a concrete checkout in
which the cart snapshot equals the product price: the created order (id 1,
total 150) is produced, and its total equals the sum of qty × `priceSnap`
over its order items. -/
theorem totalAmountMatchesCartSnapshotsWitness :
    (⟨1, 1, "ORD-5-1", .PAID, 150, "some address"⟩ : Order) ∈
      ((checkout dbC2w 1 "some address" [] 5).2.toOption.getD []) ∧
    (⟨1, 1, "ORD-5-1", .PAID, 150, "some address"⟩ : Order).totalAmount =
      (((checkout dbC2w 1 "some address" [] 5).1.orderItems.filter
          (fun oi => oi.orderId == (⟨1, 1, "ORD-5-1", .PAID, 150,
            "some address"⟩ : Order).id)).map
        (fun oi => oi.qty * oi.priceSnap)).sum :=
  ⟨by decide,
   totalAmountMatchesCartSnapshots dbC2w 1 "some address" [] 5
     (checkout dbC2w 1 "some address" [] 5).1
     ((checkout dbC2w 1 "some address" [] 5).2.toOption.getD [])
     (by decide) (by decide) (by decide)
     ⟨1, 1, "ORD-5-1", .PAID, 150, "some address"⟩ (by decide)⟩

/-- Enriching commutes with the per-product quantity accounting. -/
theorem sumQty_enrich (db : DB) (l : List CartItem) (pid : Nat) :
    sumQty (enrich db l) pid = sumQtyC l pid := by
  unfold sumQty sumQtyC enrich
  rw [List.map_map]
  rfl

theorem forall₂_map_keys {α β γ : Type} {R : α → β → Prop} {S : α → γ → Prop}
    (f : β → γ) :
    ∀ {l1 : List α} {l2 : List β}, List.Forall₂ R l1 l2 →
      (∀ a b, b ∈ l2 → R a b → S a (f b)) →
      List.Forall₂ S l1 (l2.map f)
  | _, _, List.Forall₂.nil, _ => List.Forall₂.nil
  | _, _, List.Forall₂.cons hab h, himp =>
    List.Forall₂.cons (himp _ _ (List.mem_cons_self _ _) hab)
      (forall₂_map_keys f h
        (fun a b hb hr => himp a b (List.mem_cons_of_mem _ hb) hr))

/-- Fixture: buyer 1's cart 3 holds qty-1 items of product 7 (shop 1, price
100) and product 8 (shop 2, price 200), snapshots equal to the prices;
stocks 5 and 4. -/
def dbC3 : DB :=
  { products := [⟨7, 1, "p7", 100, 5, 0, true⟩, ⟨8, 2, "p8", 200, 4, 0, true⟩],
    carts := [⟨3, 1⟩],
    cartItems := [⟨11, 3, 7, 1, 100⟩, ⟨12, 3, 8, 1, 200⟩],
    orders := [], orderItems := [], shops := [⟨1, 9⟩, ⟨2, 8⟩],
    nextCartId := 4, nextCartItemId := 13, nextOrderId := 1,
    nextOrderItemId := 1 }

/-- **C3 counterexample.** The claim says every successful checkout with no
`selectedItemIds` creates exactly one order per distinct owning shop, with
per-shop totals.  The repository mounts two checkout handlers; the legacy
one (`orders.js`, `POST /api/orders/checkout`) run on a cart holding items
of two distinct shops (shop keys [1, 2]) creates exactly **one** order with
the combined total 300 instead of two orders with totals 100 and 200. -/
theorem legacyCheckoutSingleOrderAcrossShops :
    ((selectedCartItems dbC3 3 []).map
      (fun it => itemShopId (it, findProduct dbC3 it.productId))) = [1, 2] ∧
    ((checkoutSingle dbC3 1 "some address" 5).2.toOption.map
      (fun o => o.totalAmount)) = some 300 ∧
    (checkoutSingle dbC3 1 "some address" 5).1.orders.length = 1 := by
  refine ⟨by decide, by decide, by decide⟩

/-- **C3 (amended).** Restricted to the per-shop checkout handler
(`reviews.js`, the variant taking an address record and optional
`selectedItemIds`): every successful run with no selection creates exactly
one order per distinct owning shop of the cart's items (the partition keys
are distinct and are exactly the item shops, and orders correspond 1-1 to
keys), each order's total is the sum of qty × priceSnapshot of its shop's
cart items, the cart ends empty, and every product's stock is decremented
(and soldCount incremented) by exactly the ordered quantity. -/
theorem checkoutPerShopOrders (db : DB) (uid : Nat) (addr : String)
    (now : Nat) (db' : DB) (os : List Order)
    (hrun : checkout db uid addr [] now = (db', .ok os)) :
    ∃ cart, findCartByUser db uid = some cart ∧
      (((groupByShop (enrich db (selectedCartItems db cart.id []))).map
          (fun g => g.1)).Nodup ∧
       (∀ s : Nat,
          s ∈ (groupByShop (enrich db (selectedCartItems db cart.id []))).map
            (fun g => g.1) ↔
          ∃ it ∈ selectedCartItems db cart.id [],
            itemShopId (it, findProduct db it.productId) = s) ∧
       os.length = ((groupByShop (enrich db
          (selectedCartItems db cart.id []))).map (fun g => g.1)).length ∧
       List.Forall₂ (fun (o : Order) (s : Nat) =>
          o.totalAmount = (((selectedCartItems db cart.id []).filter
              (fun it => itemShopId (it, findProduct db it.productId) == s)).map
            (fun it => it.qty * it.priceSnapshot)).sum ∧
          o.code = mkOrderCode now s ∧ o.userId = uid ∧
          o.paymentStatus = .PAID ∧ o.addressSnap = addr)
         os
         ((groupByShop (enrich db (selectedCartItems db cart.id []))).map
           (fun g => g.1)) ∧
       db'.cartItems.filter (fun it => it.cartId == cart.id) = [] ∧
       db'.products = db.products.map (fun p =>
         { p with
           stock := p.stock - sumQtyC (selectedCartItems db cart.id []) p.id,
           soldCount :=
             p.soldCount + sumQtyC (selectedCartItems db cart.id []) p.id })) := by
  obtain ⟨snap, hv, hcm⟩ := checkout_ok_inv db uid addr [] now db' os hrun
  obtain ⟨cart, hcart, hcid, hitems, hne, hval⟩ :=
    checkoutValidate_ok_inv db uid [] snap hv
  refine ⟨cart, hcart, ?_⟩
  rw [← hitems]
  obtain ⟨hf2, hfp, hfo, hfoi, hfno, hfni, hfc, hfci, hfs, hfnc, hfnci⟩ :=
    processGroup_foldl uid addr now (groupByShop snap.items) db []
  have hcm' : (drainCart ((groupByShop snap.items).foldl
        (processGroup uid addr now) (db, [])).1 snap.cartId [],
      ((groupByShop snap.items).foldl
        (processGroup uid addr now) (db, [])).2) = (db', os) := hcm
  have hdb' : db' = drainCart ((groupByShop snap.items).foldl
      (processGroup uid addr now) (db, [])).1 snap.cartId [] :=
    (congrArg Prod.fst hcm').symm
  have hos : os = mkOrders uid addr now db.nextOrderId (groupByShop snap.items) := by
    have h1 : os = ((groupByShop snap.items).foldl
        (processGroup uid addr now) (db, [])).2 := (congrArg Prod.snd hcm').symm
    rw [h1, hf2, List.nil_append]
  have hinv := groupByShop_inv snap.items
  refine ⟨hinv.1, ?_, ?_, ?_, ?_, ?_⟩
  · intro s
    constructor
    · intro hs
      obtain ⟨g, hg, hgs⟩ := List.mem_map.mp hs
      obtain ⟨e, he, hes⟩ := (hinv.2.2 s).mp ⟨g, hg, hgs⟩
      rw [hitems] at he
      obtain ⟨it, hit, heq⟩ :=
        (enrich_mem db (selectedCartItems db cart.id []) e).mp he
      refine ⟨it, hit, ?_⟩
      rw [← heq]
      exact hes
    · intro ⟨it, hit, hits⟩
      have he : (it, findProduct db it.productId) ∈ snap.items := by
        rw [hitems]
        exact (enrich_mem db (selectedCartItems db cart.id []) _).mpr
          ⟨it, hit, rfl⟩
      obtain ⟨g, hg, hgs⟩ := (hinv.2.2 s).mpr ⟨_, he, hits⟩
      exact List.mem_map.mpr ⟨g, hg, hgs⟩
  · rw [hos, List.length_map, mkOrders_length]
  · rw [hos]
    apply forall₂_map_keys (fun g => g.1)
      (mkOrders_rel uid addr now (groupByShop snap.items) db.nextOrderId)
    intro o g hg hr
    obtain ⟨ht, hc, hu, hp, ha⟩ := hr
    refine ⟨?_, hc, hu, hp, ha⟩
    rw [ht, hinv.2.1 g hg, groupTotal_eq_sum, hitems]
    unfold enrich
    rw [List.filter_map, List.map_map]
    rfl
  · rw [hdb']
    have hdrain : (drainCart ((groupByShop snap.items).foldl
        (processGroup uid addr now) (db, [])).1 snap.cartId []).cartItems =
        ((groupByShop snap.items).foldl
          (processGroup uid addr now) (db, [])).1.cartItems.filter
          (fun it => !(it.cartId == snap.cartId)) := rfl
    rw [hdrain, hfci, hcid]
    apply List.filter_eq_nil_iff.mpr
    intro it hit hc
    have := List.of_mem_filter hit
    simp_all
  · rw [hdb', (drainCart_projs _ _ _).2.2.1, hfp, applyDecs_eq_map]
    apply List.map_congr_left
    intro p _
    have hperm := groupByShop_join_perm snap.items
    rw [sumQty_perm hperm p.id, hitems, sumQty_enrich]

/-- **C3 witness.** The amended per-shop theorem applied to the two-shop
scenario of the claim — and, concretely evaluated, the run produces exactly
the orders with totals 100 and 200, an empty cart, and both stocks
decremented by 1. -/
theorem checkoutPerShopOrdersWitness :
    (((checkout dbC3 1 "some address" [] 5).2.toOption.map
        (fun os => os.map (fun o => o.totalAmount))) = some [100, 200] ∧
     (checkout dbC3 1 "some address" [] 5).1.cartItems = [] ∧
     ((checkout dbC3 1 "some address" [] 5).1.products.map
        (fun p => (p.id, p.stock))) = [(7, 4), (8, 3)]) ∧
    (∃ cart, findCartByUser dbC3 1 = some cart ∧
      (((groupByShop (enrich dbC3 (selectedCartItems dbC3 cart.id []))).map
          (fun g => g.1)).Nodup ∧
       (∀ s : Nat,
          s ∈ (groupByShop (enrich dbC3 (selectedCartItems dbC3 cart.id []))).map
            (fun g => g.1) ↔
          ∃ it ∈ selectedCartItems dbC3 cart.id [],
            itemShopId (it, findProduct dbC3 it.productId) = s) ∧
       ((checkout dbC3 1 "some address" [] 5).2.toOption.getD []).length =
         ((groupByShop (enrich dbC3
            (selectedCartItems dbC3 cart.id []))).map (fun g => g.1)).length ∧
       List.Forall₂ (fun (o : Order) (s : Nat) =>
          o.totalAmount = (((selectedCartItems dbC3 cart.id []).filter
              (fun it => itemShopId (it, findProduct dbC3 it.productId) == s)).map
            (fun it => it.qty * it.priceSnapshot)).sum ∧
          o.code = mkOrderCode 5 s ∧ o.userId = 1 ∧
          o.paymentStatus = .PAID ∧ o.addressSnap = "some address")
         ((checkout dbC3 1 "some address" [] 5).2.toOption.getD [])
         ((groupByShop (enrich dbC3 (selectedCartItems dbC3 cart.id []))).map
           (fun g => g.1)) ∧
       (checkout dbC3 1 "some address" [] 5).1.cartItems.filter
         (fun it => it.cartId == cart.id) = [] ∧
       (checkout dbC3 1 "some address" [] 5).1.products =
         dbC3.products.map (fun p =>
           { p with
             stock := p.stock - sumQtyC (selectedCartItems dbC3 cart.id []) p.id,
             soldCount := p.soldCount +
               sumQtyC (selectedCartItems dbC3 cart.id []) p.id }))) :=
  ⟨⟨by decide, by decide, by decide⟩,
    checkoutPerShopOrders dbC3 1 "some address" 5
      (checkout dbC3 1 "some address" [] 5).1
      ((checkout dbC3 1 "some address" [] 5).2.toOption.getD []) (by decide)⟩

theorem checkoutSingle_state (db : DB) (uid : Nat) (addr : String) (now : Nat) :
    (checkoutSingle db uid addr now).1 = db ∨
    ∃ o, (checkoutSingle db uid addr now).2 = .ok o := by
  unfold checkoutSingle
  cases hc : findCartByUser db uid with
  | none => exact Or.inl rfl
  | some cart =>
    simp only
    split
    · exact Or.inl rfl
    · split
      · exact Or.inl rfl
      · exact Or.inr ⟨_, rfl⟩

/-- **C4.** Checkout is all-or-nothing on failure: whenever either checkout
handler fails — empty cart, invalid selection, inactive product, or
insufficient stock — the state is returned unchanged (no order, order item,
stock change or cart removal is committed), and a stock/availability error
names a product that is indeed among the processed cart items and indeed
fails the corresponding check. -/
theorem checkoutFailureAtomic (db : DB) (uid : Nat) (addr : String)
    (sel : List Nat) (now : Nat) (e : ApiError) :
    ((checkout db uid addr sel now).2 = .error e →
      (checkout db uid addr sel now).1 = db ∧
      (∀ pid, e = .insufficientStock pid →
        ∃ cart, findCartByUser db uid = some cart ∧
          ∃ it ∈ selectedCartItems db cart.id sel, it.productId = pid ∧
            ∃ p, findProduct db pid = some p ∧ p.isActive = true ∧
              p.stock < it.qty) ∧
      (∀ pid, e = .productUnavailable pid →
        ∃ cart, findCartByUser db uid = some cart ∧
          ∃ it ∈ selectedCartItems db cart.id sel, it.productId = pid ∧
            (findProduct db pid = none ∨
              ∃ p, findProduct db pid = some p ∧ p.isActive = false))) ∧
    ((checkoutSingle db uid addr now).2 = .error e →
      (checkoutSingle db uid addr now).1 = db) := by
  constructor
  · intro h
    obtain ⟨h1, h2⟩ := checkout_err_state db uid addr sel now e h
    refine ⟨h1, ?_, ?_⟩
    · intro pid hpid
      subst hpid
      exact checkoutValidate_err_stock db uid sel pid h2
    · intro pid hpid
      subst hpid
      exact checkoutValidate_err_unavail db uid sel pid h2
  · intro h
    rcases checkoutSingle_state db uid addr now with h1 | ⟨o, h1⟩
    · exact h1
    · rw [h1] at h
      cases h

/-- Fixture: buyer 1's cart holds a qty-1 line of product 7, which is
active but out of stock. -/
def dbC4 : DB :=
  { products := [⟨7, 1, "tee", 100, 0, 2, true⟩],
    carts := [⟨3, 1⟩],
    cartItems := [⟨11, 3, 7, 1, 100⟩],
    orders := [], orderItems := [], shops := [⟨1, 9⟩],
    nextCartId := 4, nextCartItemId := 12, nextOrderId := 1,
    nextOrderItemId := 1 }

/-- **C4 witness.** The atomicity theorem applied at a concrete failing
checkout: the run fails with `InsufficientStock` naming product 7, the
state is exactly the input state, and product 7 really is a processed cart
item whose stock is below the requested quantity. -/
theorem checkoutFailureAtomicWitness :
    (checkout dbC4 1 "some address" [] 5).2 =
      .error (.insufficientStock 7) ∧
    (checkout dbC4 1 "some address" [] 5).1 = dbC4 ∧
    (∃ cart, findCartByUser dbC4 1 = some cart ∧
      ∃ it ∈ selectedCartItems dbC4 cart.id [], it.productId = 7 ∧
        ∃ p, findProduct dbC4 7 = some p ∧ p.isActive = true ∧
          p.stock < it.qty) := by
  have h := (checkoutFailureAtomic dbC4 1 "some address" [] 5
    (.insufficientStock 7)).1 (by decide)
  exact ⟨by decide, h.1, h.2.1 7 rfl⟩

/-- The seller move table written from the spec's words (§4.4: permitted
moves are NEW→CONFIRMED, CONFIRMED→SHIPPED, and {NEW,CONFIRMED}→CANCELLED),
to be compared with the code's `canSellerTransit`. -/
def specSellerMoves (fromSt toSt : FulfillmentStatus) : Prop :=
  (fromSt = .NEW ∧ toSt = .CONFIRMED) ∨
  (fromSt = .CONFIRMED ∧ toSt = .SHIPPED) ∨
  (fromSt = .NEW ∧ toSt = .CANCELLED) ∨
  (fromSt = .CONFIRMED ∧ toSt = .CANCELLED)

instance (f t : FulfillmentStatus) : Decidable (specSellerMoves f t) := by
  unfold specSellerMoves
  infer_instance

/-- The code's transition predicate coincides with the spec's move table. -/
theorem canSellerTransit_spec (f t : FulfillmentStatus) :
    canSellerTransit f t = true ↔ specSellerMoves f t := by
  cases f <;> cases t <;> decide

/-- Fixture: seller 9 owns shop 1; buyer 2 owns order 4 with item 5 in NEW
(product 7, shop 1). -/
def dbC5 : DB :=
  { products := [⟨7, 1, "tee", 10, 3, 7, true⟩],
    carts := [], cartItems := [],
    orders := [⟨4, 2, "c4", .PAID, 20, "addr"⟩],
    orderItems := [⟨5, 4, 7, 1, 2, .NEW, "tee", 10⟩],
    shops := [⟨1, 9⟩],
    nextCartId := 1, nextCartItemId := 1, nextOrderId := 10,
    nextOrderItemId := 10 }

/-- **C5.** The order-item transition relation is exactly as claimed: a
seller-driven update succeeds iff the item's denormalized shopId equals the
seller's own shop and the (from, to) pair is in the spec's table (otherwise
Forbidden, respectively InvalidTransition reporting the attempted pair, for
any target the input validation admits); a buyer-driven update succeeds iff
the caller is the owning order's buyer and the move is SHIPPED→COMPLETED
(otherwise Forbidden, respectively InvalidTransition reporting the
from-state); consequently no transition ever succeeds from COMPLETED or
CANCELLED. -/
theorem transitionRelationExact (db : DB) (sellerId buyerId itemId : Nat)
    (shop : Shop) (item : OrderItem) (order : Order)
    (hshop : findShopByOwner db sellerId = some shop)
    (hitem : findOrderItem db itemId = some item)
    (horder : findOrder db item.orderId = some order) :
    (∀ toSt : FulfillmentStatus,
      (∃ db' it', sellerUpdateStatus db sellerId itemId toSt = (db', .ok it')) ↔
        (item.shopId = shop.id ∧ specSellerMoves item.status toSt)) ∧
    (∀ toSt ∈ SELLER_UPDATE_STATUSES, item.shopId ≠ shop.id →
      sellerUpdateStatus db sellerId itemId toSt = (db, .error .forbidden)) ∧
    (∀ toSt ∈ SELLER_UPDATE_STATUSES, item.shopId = shop.id →
      ¬ specSellerMoves item.status toSt →
      sellerUpdateStatus db sellerId itemId toSt =
        (db, .error (.invalidTransitionSeller item.status toSt))) ∧
    ((∃ db' it', buyerCompleteItem db buyerId itemId = (db', .ok it')) ↔
      (order.userId = buyerId ∧ item.status = .SHIPPED)) ∧
    (order.userId ≠ buyerId →
      buyerCompleteItem db buyerId itemId = (db, .error .forbidden)) ∧
    (order.userId = buyerId → item.status ≠ .SHIPPED →
      buyerCompleteItem db buyerId itemId =
        (db, .error (.invalidTransitionBuyer item.status))) ∧
    ((item.status = .COMPLETED ∨ item.status = .CANCELLED) →
      (∀ toSt, ¬ ∃ db' it',
        sellerUpdateStatus db sellerId itemId toSt = (db', .ok it')) ∧
      ¬ ∃ db' it', buyerCompleteItem db buyerId itemId = (db', .ok it')) := by
  have hseller : ∀ toSt, sellerUpdateStatus db sellerId itemId toSt =
      (if !(SELLER_UPDATE_STATUSES.contains toSt) then
        (db, .error .validationError)
      else if item.shopId != shop.id then (db, .error .forbidden)
      else if !(canSellerTransit item.status toSt) then
        (db, .error (.invalidTransitionSeller item.status toSt))
      else ({ db with orderItems := setItemStatus db.orderItems itemId toSt },
        .ok { item with status := toSt })) := by
    intro toSt
    unfold sellerUpdateStatus
    rw [hshop, hitem]
  have hbuyer : buyerCompleteItem db buyerId itemId =
      (if order.userId != buyerId then (db, .error .forbidden)
      else if item.status != .SHIPPED then
        (db, .error (.invalidTransitionBuyer item.status))
      else ({ db with
          orderItems := setItemStatus db.orderItems itemId .COMPLETED },
        .ok { item with status := .COMPLETED })) := by
    have hb1 : buyerCompleteItem db buyerId itemId =
        (match findOrder db item.orderId with
        | none => (db, Except.error ApiError.forbidden)
        | some order =>
          if order.userId != buyerId then (db, .error .forbidden)
          else if item.status != .SHIPPED then
            (db, .error (.invalidTransitionBuyer item.status))
          else ({ db with
              orderItems := setItemStatus db.orderItems itemId .COMPLETED },
            .ok { item with status := .COMPLETED })) := by
      unfold buyerCompleteItem
      rw [hitem]
    rw [hb1, horder]
  have hc1 : ∀ toSt : FulfillmentStatus,
      (∃ db' it', sellerUpdateStatus db sellerId itemId toSt = (db', .ok it')) ↔
        (item.shopId = shop.id ∧ specSellerMoves item.status toSt) := by
    intro toSt
    rw [hseller toSt]
    by_cases hsh : item.shopId = shop.id <;>
      cases hst : item.status <;> cases toSt <;>
      simp_all [SELLER_UPDATE_STATUSES, canSellerTransit, specSellerMoves]
  have hc4 : (∃ db' it',
      buyerCompleteItem db buyerId itemId = (db', .ok it')) ↔
      (order.userId = buyerId ∧ item.status = .SHIPPED) := by
    rw [hbuyer]
    by_cases hb : order.userId = buyerId <;> cases hst : item.status <;>
      simp_all
  refine ⟨hc1, ?_, ?_, hc4, ?_, ?_, ?_⟩
  · intro toSt hmem hne
    rw [hseller toSt]
    cases toSt <;> simp_all [SELLER_UPDATE_STATUSES]
  · intro toSt hmem hsh hnm
    rw [hseller toSt]
    have hct : canSellerTransit item.status toSt = false := by
      rcases Bool.eq_false_or_eq_true (canSellerTransit item.status toSt) with
        h1 | h1
      · exact absurd ((canSellerTransit_spec _ _).mp h1) hnm
      · exact h1
    cases toSt <;> simp_all [SELLER_UPDATE_STATUSES]
  · intro hb
    rw [hbuyer]
    simp [hb]
  · intro hb hst
    rw [hbuyer]
    have : (item.status != FulfillmentStatus.SHIPPED) = true := by
      simpa using hst
    simp [hb, this]
  · intro hterm
    constructor
    · intro toSt hex
      obtain ⟨hsh, hmv⟩ := (hc1 toSt).mp hex
      rcases hterm with h1 | h1 <;> rw [h1] at hmv <;>
        rcases hmv with ⟨h, _⟩ | ⟨h, _⟩ | ⟨h, _⟩ | ⟨h, _⟩ <;> cases h
    · intro hex
      obtain ⟨_, hst⟩ := hc4.mp hex
      rcases hterm with h1 | h1 <;> rw [h1] at hst <;> cases hst

/-- **C5 witness.** The transition theorem applied to a concrete state:
seller 9 may move NEW item 5 of its own shop to CONFIRMED, and buyer 2's
completion attempt on the same NEW item fails with the invalid-transition
error reporting NEW. -/
theorem transitionRelationExactWitness :
    (∃ db' it', sellerUpdateStatus dbC5 9 5 .CONFIRMED = (db', .ok it')) ∧
    buyerCompleteItem dbC5 2 5 =
      (dbC5, .error (.invalidTransitionBuyer .NEW)) := by
  have h := transitionRelationExact dbC5 9 2 5 ⟨1, 9⟩
    ⟨5, 4, 7, 1, 2, .NEW, "tee", 10⟩ ⟨4, 2, "c4", .PAID, 20, "addr"⟩
    rfl rfl rfl
  exact ⟨(h.1 .CONFIRMED).mpr ⟨rfl, Or.inl ⟨rfl, rfl⟩⟩,
    h.2.2.2.2.2.1 rfl (by decide)⟩

/-- **C6.** Order cancellation guards: the call fails with NotFound when the
order is absent or not owned by the calling buyer, and fails with
OrderNotCancellable when any item of the order is SHIPPED or COMPLETED — in
every such case the returned state is exactly the input state (no item
status, stock or payment change). -/
theorem cancelGuards (db : DB) (uid orderId : Nat) :
    (findOrder db orderId = none →
      cancelOrder db uid orderId = (db, .error .notFound)) ∧
    (∀ order, findOrder db orderId = some order → order.userId ≠ uid →
      cancelOrder db uid orderId = (db, .error .notFound)) ∧
    (∀ order, findOrder db orderId = some order → order.userId = uid →
      (∃ it ∈ itemsOfOrder db orderId,
        it.status = .SHIPPED ∨ it.status = .COMPLETED) →
      cancelOrder db uid orderId = (db, .error .orderNotCancellable)) := by
  refine ⟨?_, ?_, ?_⟩
  · intro h
    unfold cancelOrder
    rw [h]
  · intro order h hne
    unfold cancelOrder
    rw [h]
    have hb : (order.userId != uid) = true := by simpa using hne
    simp [hb]
  · intro order h howner hship
    unfold cancelOrder
    rw [h]
    have hb : (order.userId != uid) = false := by simp [howner]
    have ha : (itemsOfOrder db orderId).any
        (fun it => it.status == .SHIPPED || it.status == .COMPLETED) = true := by
      apply List.any_eq_true.mpr
      obtain ⟨it, hit, hcase⟩ := hship
      refine ⟨it, hit, ?_⟩
      rcases hcase with h3 | h3 <;> simp [h3]
    simp [hb, ha]

/-- Fixture: buyer 2's order 4 holds item 5 already SHIPPED. -/
def dbC6 : DB :=
  { products := [⟨7, 1, "tee", 10, 3, 7, true⟩],
    carts := [], cartItems := [],
    orders := [⟨4, 2, "c4", .PAID, 20, "addr"⟩],
    orderItems := [⟨5, 4, 7, 1, 2, .SHIPPED, "tee", 10⟩],
    shops := [⟨1, 9⟩],
    nextCartId := 1, nextCartItemId := 1, nextOrderId := 10,
    nextOrderItemId := 10 }

/-- **C6 witness.** The guards applied at concrete inputs: cancelling a
missing order is NotFound, a stranger's cancel of order 4 is NotFound, and
the owner's cancel of order 4 (whose item is SHIPPED) fails
OrderNotCancellable with the state untouched. -/
theorem cancelGuardsWitness :
    cancelOrder dbC6 2 99 = (dbC6, .error .notFound) ∧
    cancelOrder dbC6 3 4 = (dbC6, .error .notFound) ∧
    cancelOrder dbC6 2 4 = (dbC6, .error .orderNotCancellable) := by
  refine ⟨(cancelGuards dbC6 2 99).1 (by decide),
    (cancelGuards dbC6 3 4).2.1 ⟨4, 2, "c4", .PAID, 20, "addr"⟩
      (by decide) (by decide),
    (cancelGuards dbC6 2 4).2.2 ⟨4, 2, "c4", .PAID, 20, "addr"⟩
      (by decide) rfl ?_⟩
  exact ⟨⟨5, 4, 7, 1, 2, .SHIPPED, "tee", 10⟩, by decide, Or.inl rfl⟩

/-! ## Cancellation idempotence machinery -/

theorem cancelFold_projs :
    ∀ (L : List OrderItem) (db : DB),
      (L.foldl (fun acc it =>
        { acc with
          orderItems := setItemStatus acc.orderItems it.id .CANCELLED,
          products := releaseStock acc.products it.productId it.qty }) db).orderItems
        = db.orderItems.map (fun x =>
            if (L.map (fun c => c.id)).contains x.id then
              { x with status := .CANCELLED } else x) ∧
      (L.foldl (fun acc it =>
        { acc with
          orderItems := setItemStatus acc.orderItems it.id .CANCELLED,
          products := releaseStock acc.products it.productId it.qty }) db).products
        = applyIncs L db.products ∧
      (L.foldl (fun acc it =>
        { acc with
          orderItems := setItemStatus acc.orderItems it.id .CANCELLED,
          products := releaseStock acc.products it.productId it.qty }) db).orders
        = db.orders
  | [], db => by
    refine ⟨?_, rfl, rfl⟩
    show db.orderItems = _
    have h : ∀ x : OrderItem,
        (if (([] : List OrderItem).map (fun c => c.id)).contains x.id then
          { x with status := FulfillmentStatus.CANCELLED } else x) = x := by
      intro x
      simp
    rw [List.map_congr_left (fun x _ => h x), List.map_id' db.orderItems]
  | it :: L, db => by
    rw [List.foldl_cons]
    obtain ⟨h1, h2, h3⟩ := cancelFold_projs L
      { db with
        orderItems := setItemStatus db.orderItems it.id .CANCELLED,
        products := releaseStock db.products it.productId it.qty }
    refine ⟨?_, ?_, h3⟩
    · rw [h1]
      show (setItemStatus db.orderItems it.id .CANCELLED).map _ = _
      unfold setItemStatus
      rw [List.map_map]
      apply List.map_congr_left
      intro x _
      by_cases hx : x.id = it.id
      · by_cases hc : ((L.map (fun c => c.id)).contains x.id) = true
        · simp [Function.comp, hx, hc]
        · simp [Function.comp, hx, hc]
      · have hbx : (x.id == it.id) = false := by simp [hx]
        by_cases hc : ((L.map (fun c => c.id)).contains x.id) = true
        · simp [Function.comp, hbx, hc, hx]
        · simp [Function.comp, hbx, hc, hx]
    · rw [h2]
      rfl

theorem cancelTx_projs (db : DB) (orderId : Nat) (L : List OrderItem) :
    (cancelTx db orderId L).orderItems =
      db.orderItems.map (fun x =>
        if (L.map (fun c => c.id)).contains x.id then
          { x with status := .CANCELLED } else x) ∧
    (cancelTx db orderId L).products = applyIncs L db.products ∧
    (cancelTx db orderId L).orders =
      setOrderPayment db.orders orderId .REFUNDED := by
  obtain ⟨h1, h2, h3⟩ := cancelFold_projs L db
  exact ⟨h1, h2,
    congrArg (fun os => setOrderPayment os orderId .REFUNDED) h3⟩

theorem find?_setOrderPayment (os : List Order) (oid : Nat)
    (ps : PaymentStatus) (oid' : Nat) :
    (setOrderPayment os oid ps).find? (fun o => o.id == oid') =
      (os.find? (fun o => o.id == oid')).map
        (fun o => if o.id == oid then { o with paymentStatus := ps } else o) := by
  induction os with
  | nil => rfl
  | cons o os ih =>
    unfold setOrderPayment at ih ⊢
    rw [List.map_cons]
    by_cases h2 : o.id = oid
    · have hfo : (if (o.id == oid) = true then
          ({ o with paymentStatus := ps } : Order) else o) =
          { o with paymentStatus := ps } := if_pos (by simp [h2])
      rw [hfo]
      by_cases h1 : o.id = oid'
      · rw [@List.find?_cons_of_pos Order (fun x => x.id == oid')
            { o with paymentStatus := ps } _ (by simp [h1]),
          @List.find?_cons_of_pos Order (fun x => x.id == oid') o os
            (by simp [h1])]
        rw [Option.map_some', hfo]
      · rw [@List.find?_cons_of_neg Order (fun x => x.id == oid')
            { o with paymentStatus := ps } _ (by simp [h1]),
          @List.find?_cons_of_neg Order (fun x => x.id == oid') o os
            (by simp [h1])]
        exact ih
    · have hfo : (if (o.id == oid) = true then
          ({ o with paymentStatus := ps } : Order) else o) = o :=
        if_neg (by simp [h2])
      rw [hfo]
      by_cases h1 : o.id = oid'
      · rw [@List.find?_cons_of_pos Order (fun x => x.id == oid') o _
            (by simp [h1]),
          @List.find?_cons_of_pos Order (fun x => x.id == oid') o os
            (by simp [h1])]
        rw [Option.map_some', hfo]
      · rw [@List.find?_cons_of_neg Order (fun x => x.id == oid') o _
            (by simp [h1]),
          @List.find?_cons_of_neg Order (fun x => x.id == oid') o os
            (by simp [h1])]
        exact ih

theorem setOrderPayment_refunded (os : List Order) (oid : Nat)
    (ps : PaymentStatus) (o : Order) (ho : o ∈ setOrderPayment os oid ps)
    (hid : o.id = oid) : o.paymentStatus = ps := by
  obtain ⟨x, hx, hfx⟩ := List.mem_map.mp ho
  by_cases h1 : x.id = oid
  · rw [if_pos (by simp [h1])] at hfx
    rw [← hfx]
  · rw [if_neg (by simp [h1])] at hfx
    subst hfx
    exact absurd hid h1

/-- The status rewrite of the cancellation loop preserves the owning order
reference of every item. -/
theorem cancelMark_orderId (L : List OrderItem) (x : OrderItem) :
    (if (L.map (fun c => c.id)).contains x.id then
      { x with status := FulfillmentStatus.CANCELLED } else x).orderId =
      x.orderId := by
  by_cases h : ((L.map (fun c => c.id)).contains x.id) = true
  · rw [if_pos h]
  · rw [if_neg h]

/-- **C7.** Cancellation is idempotent: a successful cancel reports exactly
the number of then-cancellable (NEW/CONFIRMED) items and releases exactly
their stock; calling cancel again succeeds, reports zero newly-cancelled
items, re-asserts REFUNDED on the order, and changes no order item and no
product — so the total release over both calls is exactly the stock of the
items still cancellable at the first call. -/
theorem cancelIdempotent (db : DB) (uid oid : Nat) (db₁ : DB) (n₁ : Nat)
    (hrun : cancelOrder db uid oid = (db₁, .ok n₁)) :
    n₁ = (cancellableOf db oid).length ∧
    db₁.products = db.products.map (fun p =>
      { p with
        stock := p.stock + sumQtyItems (cancellableOf db oid) p.id,
        soldCount := p.soldCount - sumQtyItems (cancellableOf db oid) p.id }) ∧
    ∃ db₂, cancelOrder db₁ uid oid = (db₂, .ok 0) ∧
      db₂.products = db₁.products ∧
      db₂.orderItems = db₁.orderItems ∧
      (∀ o ∈ db₂.orders, o.id = oid → o.paymentStatus = .REFUNDED) := by
  unfold cancelOrder at hrun
  cases hord : findOrder db oid with
  | none =>
    rw [hord] at hrun
    have h2 : (Except.error ApiError.notFound : Except ApiError Nat) =
        .ok n₁ := congrArg Prod.snd hrun
    cases h2
  | some order =>
    rw [hord] at hrun
    have hord2' : db.orders.find? (fun o => o.id == oid) = some order := hord
    have hordid : (order.id == oid) = true := by
      have h := List.find?_some hord2'
      simpa using h
    have hrun' : (if (order.userId != uid) = true then
        ((db, Except.error ApiError.notFound) : DB × Except ApiError Nat)
      else if ((itemsOfOrder db oid).any (fun it =>
          it.status == FulfillmentStatus.SHIPPED ||
          it.status == FulfillmentStatus.COMPLETED)) = true then
        (db, Except.error ApiError.orderNotCancellable)
      else if (cancellableOf db oid).isEmpty = true then
        ({ db with orders := setOrderPayment db.orders oid PaymentStatus.REFUNDED },
          Except.ok 0)
      else
        (cancelTx db oid (cancellableOf db oid),
          Except.ok (cancellableOf db oid).length)) = (db₁, Except.ok n₁) := hrun
    by_cases howner : (order.userId != uid) = true
    · rw [if_pos howner] at hrun'
      have h2 : (Except.error ApiError.notFound : Except ApiError Nat) =
          .ok n₁ := congrArg Prod.snd hrun'
      cases h2
    · rw [if_neg howner] at hrun'
      have huid : order.userId = uid := by simpa using howner
      by_cases hany : ((itemsOfOrder db oid).any (fun it =>
          it.status == FulfillmentStatus.SHIPPED ||
          it.status == FulfillmentStatus.COMPLETED)) = true
      · rw [if_pos hany] at hrun'
        have h2 : (Except.error ApiError.orderNotCancellable :
            Except ApiError Nat) = .ok n₁ := congrArg Prod.snd hrun'
        cases h2
      · rw [if_neg hany] at hrun'
        have hanyf := Bool.eq_false_iff.mpr hany
        have hstatuses : ∀ x ∈ itemsOfOrder db oid,
            (x.status == FulfillmentStatus.SHIPPED ||
             x.status == FulfillmentStatus.COMPLETED) = false := by
          intro x hx
          rcases Bool.eq_false_or_eq_true (x.status == FulfillmentStatus.SHIPPED ||
              x.status == FulfillmentStatus.COMPLETED) with h1 | h1
          · exact absurd (List.any_eq_true.mpr ⟨x, hx, h1⟩) hany
          · exact h1
        by_cases hemp : (cancellableOf db oid).isEmpty = true
        · rw [if_pos hemp] at hrun'
          have hdb₁ : ({ db with orders := (setOrderPayment db.orders oid
              PaymentStatus.REFUNDED) } : DB) = db₁ :=
            congrArg Prod.fst hrun'
          have hok : (Except.ok 0 : Except ApiError Nat) = .ok n₁ :=
            congrArg Prod.snd hrun'
          have hn : n₁ = 0 := by
            injection hok with h
            exact h.symm
          have hcannil : cancellableOf db oid = [] := by
            simpa using hemp
          subst hdb₁
          refine ⟨by simp [hn, hcannil], ?_, ?_⟩
          · rw [hcannil]
            exact applyIncs_eq_map [] db.products
          · -- second call: items unchanged, still nothing cancellable
            have horder2 : findOrder
                { db with orders :=
                  setOrderPayment db.orders oid PaymentStatus.REFUNDED } oid =
                some { order with paymentStatus := PaymentStatus.REFUNDED } := by
              show (setOrderPayment db.orders oid PaymentStatus.REFUNDED).find?
                (fun o => o.id == oid) = _
              rw [find?_setOrderPayment, hord2', Option.map_some',
                if_pos hordid]
            refine ⟨{ db with orders := (setOrderPayment
                (setOrderPayment db.orders oid PaymentStatus.REFUNDED) oid
                PaymentStatus.REFUNDED) }, ?_, rfl, rfl, ?_⟩
            · have hsec : cancelOrder
                  { db with orders := (setOrderPayment db.orders oid
                    PaymentStatus.REFUNDED) } uid oid =
                  (if (({ order with paymentStatus :=
                      PaymentStatus.REFUNDED } : Order).userId != uid) = true then
                    ({ db with orders := (setOrderPayment db.orders oid
                      PaymentStatus.REFUNDED) }, Except.error ApiError.notFound)
                  else if ((itemsOfOrder { db with orders := (setOrderPayment
                      db.orders oid PaymentStatus.REFUNDED) } oid).any (fun it =>
                      it.status == FulfillmentStatus.SHIPPED ||
                      it.status == FulfillmentStatus.COMPLETED)) = true then
                    ({ db with orders := (setOrderPayment db.orders oid
                      PaymentStatus.REFUNDED) },
                      Except.error ApiError.orderNotCancellable)
                  else if (cancellableOf { db with orders := (setOrderPayment
                      db.orders oid PaymentStatus.REFUNDED) } oid).isEmpty
                      = true then
                    ({ db with orders := (setOrderPayment
                      (setOrderPayment db.orders oid PaymentStatus.REFUNDED) oid
                      PaymentStatus.REFUNDED) }, Except.ok 0)
                  else
                    (cancelTx { db with orders := (setOrderPayment db.orders oid
                        PaymentStatus.REFUNDED) } oid
                      (cancellableOf { db with orders := (setOrderPayment
                        db.orders oid PaymentStatus.REFUNDED) } oid),
                      Except.ok (cancellableOf { db with orders :=
                        (setOrderPayment db.orders oid PaymentStatus.REFUNDED) }
                        oid).length)) := by
                unfold cancelOrder
                rw [horder2]
                rfl
              have hb : (({ order with
                  paymentStatus := PaymentStatus.REFUNDED } : Order).userId
                  != uid) = false := by
                simp [huid]
              have hany2 : ((itemsOfOrder { db with orders := (setOrderPayment
                  db.orders oid PaymentStatus.REFUNDED) } oid).any (fun it =>
                  it.status == FulfillmentStatus.SHIPPED ||
                  it.status == FulfillmentStatus.COMPLETED)) = false := hanyf
              have hemp2 : (cancellableOf { db with orders := (setOrderPayment
                  db.orders oid PaymentStatus.REFUNDED) } oid).isEmpty
                  = true := hemp
              rw [hsec, if_neg (by rw [hb]; exact Bool.false_ne_true),
                if_neg (by rw [hany2]; exact Bool.false_ne_true),
                if_pos hemp2]
            · intro o ho hid
              exact setOrderPayment_refunded _ oid _ o ho hid
        · rw [if_neg hemp] at hrun'
          have hdb₁ : cancelTx db oid (cancellableOf db oid) = db₁ :=
            congrArg Prod.fst hrun'
          have hok : (Except.ok (cancellableOf db oid).length :
              Except ApiError Nat) = .ok n₁ := congrArg Prod.snd hrun'
          have hn : n₁ = (cancellableOf db oid).length := by
            injection hok with h
            exact h.symm
          subst hdb₁
          obtain ⟨hpi, hpp, hpo⟩ := cancelTx_projs db oid (cancellableOf db oid)
          refine ⟨hn, by rw [hpp, applyIncs_eq_map], ?_⟩
          -- items of the order after the first call
          have hitems1 : itemsOfOrder (cancelTx db oid (cancellableOf db oid)) oid
              = (itemsOfOrder db oid).map (fun x =>
                if ((cancellableOf db oid).map (fun c => c.id)).contains x.id then
                  { x with status := FulfillmentStatus.CANCELLED } else x) := by
            show (cancelTx db oid (cancellableOf db oid)).orderItems.filter _ = _
            rw [hpi, List.filter_map]
            rw [List.filter_congr (fun x _ => by
              show ((fun (it : OrderItem) => it.orderId == oid) ∘ (fun x =>
                if ((cancellableOf db oid).map (fun c => c.id)).contains x.id then
                  { x with status := FulfillmentStatus.CANCELLED } else x)) x =
                (x.orderId == oid)
              simp only [Function.comp]
              rw [cancelMark_orderId])]
            rfl
          have hmark : ∀ x ∈ itemsOfOrder db oid,
              (if ((cancellableOf db oid).map (fun c => c.id)).contains x.id then
                { x with status := FulfillmentStatus.CANCELLED } else x).status =
                FulfillmentStatus.CANCELLED ∨
              ((if ((cancellableOf db oid).map (fun c => c.id)).contains x.id then
                { x with status := FulfillmentStatus.CANCELLED } else x) = x ∧
                x.status ≠ FulfillmentStatus.NEW ∧
                x.status ≠ FulfillmentStatus.CONFIRMED) := by
            intro x hx
            by_cases hc : (((cancellableOf db oid).map
                (fun c => c.id)).contains x.id) = true
            · left
              rw [if_pos hc]
            · right
              refine ⟨if_neg hc, ?_, ?_⟩ <;> intro hst
              · have hxmem : x ∈ cancellableOf db oid := by
                  unfold cancellableOf
                  exact List.mem_filter.mpr ⟨hx, by simp [hst]⟩
                exact hc (by simpa using List.mem_map.mpr ⟨x, hxmem, rfl⟩)
              · have hxmem : x ∈ cancellableOf db oid := by
                  unfold cancellableOf
                  exact List.mem_filter.mpr ⟨hx, by simp [hst]⟩
                exact hc (by simpa using List.mem_map.mpr ⟨x, hxmem, rfl⟩)
          have hany2 : ((itemsOfOrder (cancelTx db oid
              (cancellableOf db oid)) oid).any (fun it =>
              it.status == FulfillmentStatus.SHIPPED ||
              it.status == FulfillmentStatus.COMPLETED)) = false := by
            rw [hitems1, List.any_map]
            rcases Bool.eq_false_or_eq_true ((itemsOfOrder db oid).any
              ((fun it => it.status == FulfillmentStatus.SHIPPED ||
                it.status == FulfillmentStatus.COMPLETED) ∘ fun x =>
                if ((cancellableOf db oid).map (fun c => c.id)).contains x.id then
                  { x with status := FulfillmentStatus.CANCELLED } else x))
              with h1 | h1
            · obtain ⟨x, hx, hpx⟩ := List.any_eq_true.mp h1
              simp only [Function.comp_apply] at hpx
              rcases hmark x hx with h2 | ⟨h2, _, _⟩
              · rw [h2] at hpx
                exact absurd hpx (by decide)
              · rw [h2] at hpx
                rw [hstatuses x hx] at hpx
                exact absurd hpx Bool.false_ne_true
            · exact h1
          have hemp2 : (cancellableOf (cancelTx db oid
              (cancellableOf db oid)) oid).isEmpty = true := by
            show ((itemsOfOrder (cancelTx db oid
              (cancellableOf db oid)) oid).filter (fun it =>
              it.status == FulfillmentStatus.NEW ||
              it.status == FulfillmentStatus.CONFIRMED)).isEmpty = true
            rw [hitems1]
            have : ((itemsOfOrder db oid).map (fun x =>
                if ((cancellableOf db oid).map (fun c => c.id)).contains x.id then
                  { x with status := FulfillmentStatus.CANCELLED } else x)).filter
                (fun it => it.status == FulfillmentStatus.NEW ||
                  it.status == FulfillmentStatus.CONFIRMED) = [] := by
              apply List.filter_eq_nil_iff.mpr
              intro y hy hpy
              obtain ⟨x, hx, hxy⟩ := List.mem_map.mp hy
              rcases hmark x hx with h2 | ⟨h2, h3, h4⟩
              · rw [← hxy] at hpy
                rw [h2] at hpy
                cases hpy
              · rw [h2] at hxy
                subst hxy
                rcases Bool.or_eq_true_iff.mp hpy with h5 | h5
                · exact h3 (by simpa using h5)
                · exact h4 (by simpa using h5)
            rw [this]
            rfl
          have horder2 : findOrder (cancelTx db oid (cancellableOf db oid)) oid =
              some { order with paymentStatus := PaymentStatus.REFUNDED } := by
            show (cancelTx db oid (cancellableOf db oid)).orders.find?
              (fun o => o.id == oid) = _
            rw [hpo, find?_setOrderPayment, hord2', Option.map_some',
              if_pos hordid]
          refine ⟨{ cancelTx db oid (cancellableOf db oid) with
              orders := (setOrderPayment
                (cancelTx db oid (cancellableOf db oid)).orders oid
                PaymentStatus.REFUNDED) }, ?_, rfl, rfl, ?_⟩
          · have hsec : cancelOrder (cancelTx db oid (cancellableOf db oid))
                uid oid =
                (if (({ order with paymentStatus :=
                    PaymentStatus.REFUNDED } : Order).userId != uid) = true then
                  (cancelTx db oid (cancellableOf db oid),
                    Except.error ApiError.notFound)
                else if ((itemsOfOrder (cancelTx db oid (cancellableOf db oid))
                    oid).any (fun it =>
                    it.status == FulfillmentStatus.SHIPPED ||
                    it.status == FulfillmentStatus.COMPLETED)) = true then
                  (cancelTx db oid (cancellableOf db oid),
                    Except.error ApiError.orderNotCancellable)
                else if (cancellableOf (cancelTx db oid (cancellableOf db oid))
                    oid).isEmpty = true then
                  ({ cancelTx db oid (cancellableOf db oid) with
                    orders := (setOrderPayment
                      (cancelTx db oid (cancellableOf db oid)).orders oid
                      PaymentStatus.REFUNDED) }, Except.ok 0)
                else
                  (cancelTx (cancelTx db oid (cancellableOf db oid)) oid
                    (cancellableOf (cancelTx db oid (cancellableOf db oid)) oid),
                    Except.ok (cancellableOf (cancelTx db oid
                      (cancellableOf db oid)) oid).length)) := by
              unfold cancelOrder
              rw [horder2]
              rfl
            have hb : (({ order with
                paymentStatus := PaymentStatus.REFUNDED } : Order).userId
                != uid) = false := by
              simp [huid]
            rw [hsec, if_neg (by rw [hb]; exact Bool.false_ne_true),
              if_neg (by rw [hany2]; exact Bool.false_ne_true),
              if_pos hemp2]
          · intro o ho hid
            exact setOrderPayment_refunded _ oid _ o ho hid

/-- Fixture for the C7 witness: user 2 owns PAID order 50, whose two items
(NEW qty 2 of product 7, CONFIRMED qty 1 of product 8) are both cancellable. -/
def dbC7 : DB :=
  { products := [⟨7, 1, "tee", 10, 3, 7, true⟩, ⟨8, 1, "mug", 5, 4, 2, true⟩],
    carts := [], cartItems := [],
    orders := [⟨50, 2, "c50", .PAID, 25, "addr"⟩],
    orderItems := [⟨60, 50, 7, 1, 2, .NEW, "tee", 10⟩,
                   ⟨61, 50, 8, 1, 1, .CONFIRMED, "mug", 5⟩],
    shops := [⟨1, 9⟩],
    nextCartId := 1, nextCartItemId := 1, nextOrderId := 51,
    nextOrderItemId := 62 }

/-- **C7 witness.** `cancelIdempotent` applied at the concrete store `dbC7`:
the first cancel succeeds with 2 items cancelled and releases their stock,
and the repeated cancel succeeds with 0 items and changes no product. -/
theorem cancelIdempotentWitness :
    cancelOrder dbC7 2 50 = ((cancelOrder dbC7 2 50).1, .ok 2) ∧
    (2 = (cancellableOf dbC7 50).length ∧
      (cancelOrder dbC7 2 50).1.products = dbC7.products.map (fun p =>
        { p with stock := p.stock + sumQtyItems (cancellableOf dbC7 50) p.id,
                 soldCount :=
                   p.soldCount - sumQtyItems (cancellableOf dbC7 50) p.id }) ∧
      ∃ db₂, cancelOrder (cancelOrder dbC7 2 50).1 2 50 = (db₂, .ok 0) ∧
        db₂.products = (cancelOrder dbC7 2 50).1.products ∧
        db₂.orderItems = (cancelOrder dbC7 2 50).1.orderItems ∧
        (∀ o ∈ db₂.orders, o.id = 50 → o.paymentStatus = .REFUNDED)) :=
  ⟨by decide, cancelIdempotent dbC7 2 50 (cancelOrder dbC7 2 50).1 2 (by decide)⟩

/-! ## C8: stock non-negativity under well-formed stores -/

theorem find?_id_self :
    ∀ (ps : List Product), (ps.map (fun p => p.id)).Nodup →
      ∀ {p : Product}, p ∈ ps → ps.find? (fun q => q.id == p.id) = some p
  | [], _, _, hp => by cases hp
  | x :: l, hnd, p, hp => by
    rcases List.mem_cons.mp hp with h1 | h1
    · subst h1
      rw [List.find?_cons_of_pos l (by simp)]
    · have hx : ¬ (x.id == p.id) = true := by
        intro hcontra
        have hin : p.id ∈ l.map (fun q => q.id) := List.mem_map.mpr ⟨p, h1, rfl⟩
        have hxid : x.id = p.id := by simpa using hcontra
        rw [← hxid] at hin
        exact (List.nodup_cons.mp hnd).1 hin
      rw [List.find?_cons_of_neg l hx]
      exact find?_id_self l (List.nodup_cons.mp hnd).2 h1

theorem findProduct_self (db : DB)
    (hnd : (db.products.map (fun p => p.id)).Nodup)
    {p : Product} (hp : p ∈ db.products) : findProduct db p.id = some p :=
  find?_id_self db.products hnd hp

theorem enrich_fst_productId (db : DB) (l : List CartItem) :
    (enrich db l).map (fun e => e.1.productId) =
      l.map (fun it => it.productId) := by
  unfold enrich
  rw [List.map_map]
  rfl

/-- Per-product safety of the checkout decrements: from non-negative stocks,
unique product ids, a duplicate-free cart-line list and a passed validation
loop, no decrement can take a stock below zero. -/
theorem applyDecs_stock_nonneg (db : DB) (items : List CartItem)
    (h0 : ∀ p ∈ db.products, 0 ≤ p.stock)
    (hnd : (db.products.map (fun p => p.id)).Nodup)
    (hitems : (items.map (fun it => it.productId)).Nodup)
    (hval : validateItems (enrich db items) = .ok ())
    (p : Product) (hp : p ∈ db.products) :
    0 ≤ p.stock - sumQty (enrich db items) p.id := by
  by_cases hmem : ∃ it ∈ items, it.productId = p.id
  · obtain ⟨it, hit, hpid⟩ := hmem
    have hemem : (it, findProduct db it.productId) ∈ enrich db items :=
      (enrich_mem db items _).mpr ⟨it, hit, rfl⟩
    have hndE : ((enrich db items).map (fun e => e.1.productId)).Nodup := by
      rw [enrich_fst_productId]
      exact hitems
    have hsum : sumQty (enrich db items) it.productId = it.qty :=
      sumQty_of_nodup (enrich db items) hndE
        (it, findProduct db it.productId) hemem
    obtain ⟨q, hq2, _, hqs⟩ := validateItems_ok (enrich db items) hval _ hemem
    have hpq : q = p := by
      have h1 : findProduct db p.id = some q := by
        rw [← hpid]
        exact hq2
      rw [findProduct_self db hnd hp] at h1
      injection h1 with h2
      exact h2.symm
    subst hpq
    rw [← hpid, hsum]
    have hle : it.qty ≤ q.stock := not_lt.mp hqs
    omega
  · have hz : sumQty (enrich db items) p.id = 0 := by
      apply sumQty_eq_zero
      intro e he hcontra
      obtain ⟨it, hit, heq⟩ := (enrich_mem db items e).mp he
      rw [heq] at hcontra
      exact hmem ⟨it, hit, hcontra⟩
    rw [hz]
    have := h0 p hp
    omega

theorem addCartItem_products (db : DB) (u pid : Nat) (q : Int) :
    (addCartItem db u pid q).1.products = db.products := by
  unfold addCartItem
  split
  · rfl
  · cases hfp : findProduct db pid with
    | none => rfl
    | some product =>
      simp only
      split
      · rfl
      · cases hfc : findCartByUser db u with
        | none =>
          simp only
          repeat' split
          all_goals rfl
        | some c =>
          simp only
          repeat' split
          all_goals rfl

theorem updateCartItem_products (db : DB) (u iid : Nat) (q : Int) :
    (updateCartItem db u iid q).1.products = db.products := by
  unfold updateCartItem
  repeat' split
  all_goals rfl

theorem sellerUpdateStatus_products (db : DB) (u iid : Nat)
    (st : FulfillmentStatus) :
    (sellerUpdateStatus db u iid st).1.products = db.products := by
  unfold sellerUpdateStatus
  repeat' split
  all_goals rfl

theorem buyerCompleteItem_products (db : DB) (u iid : Nat) :
    (buyerCompleteItem db u iid).1.products = db.products := by
  unfold buyerCompleteItem
  repeat' split
  all_goals rfl

theorem cancelOrder_stock_nonneg (db : DB) (u oid : Nat)
    (h0 : ∀ p ∈ db.products, 0 ≤ p.stock)
    (hq : ∀ it ∈ db.orderItems, 0 ≤ it.qty) :
    ∀ p ∈ (cancelOrder db u oid).1.products, 0 ≤ p.stock := by
  unfold cancelOrder
  cases hord : findOrder db oid with
  | none => exact h0
  | some order =>
    simp only
    split
    · exact h0
    · split
      · exact h0
      · split
        · exact h0
        · intro p' hp'
          have hprod := (cancelTx_projs db oid
            ((itemsOfOrder db oid).filter (fun it =>
              it.status == FulfillmentStatus.NEW ||
              it.status == FulfillmentStatus.CONFIRMED))).2.1
          rw [hprod, applyIncs_eq_map] at hp'
          obtain ⟨p, hp, hpe⟩ := List.mem_map.mp hp'
          subst hpe
          have hnn : 0 ≤ sumQtyItems ((itemsOfOrder db oid).filter (fun it =>
              it.status == FulfillmentStatus.NEW ||
              it.status == FulfillmentStatus.CONFIRMED)) p.id := by
            apply sumQtyItems_nonneg
            intro it hit
            exact hq it (List.mem_of_mem_filter (List.mem_of_mem_filter hit))
          have := h0 p hp
          show 0 ≤ p.stock + sumQtyItems _ p.id
          omega

theorem pis_products (oid : Nat) :
    ∀ (gItems : List (CartItem × Option Product)) (db : DB),
      (gItems.foldl (processItemSingle oid) db).products =
        applyDecs gItems db.products
  | [], _ => rfl
  | e :: gItems, db => by
    rw [List.foldl_cons]
    exact pis_products oid gItems _

theorem checkout_stock_nonneg (db : DB) (uid : Nat) (addr : String)
    (sel : List Nat) (now : Nat)
    (h0 : ∀ p ∈ db.products, 0 ≤ p.stock)
    (hnd : (db.products.map (fun p => p.id)).Nodup)
    (hcart : ∀ c ∈ db.carts, ((db.cartItems.filter
        (fun it => it.cartId == c.id)).map (fun it => it.productId)).Nodup) :
    ∀ p ∈ (checkout db uid addr sel now).1.products, 0 ≤ p.stock := by
  rcases hE : (checkout db uid addr sel now).2 with e | os
  · have hst := (checkout_err_state db uid addr sel now e hE).1
    rw [hst]
    exact h0
  · obtain ⟨snap, hv, hc⟩ := checkout_ok_inv db uid addr sel now
      (checkout db uid addr sel now).1 os (by rw [← hE])
    obtain ⟨cart, hfc, hcid, hsitems, hne, hval⟩ :=
      checkoutValidate_ok_inv db uid sel snap hv
    have hcmem : cart ∈ db.carts := by
      have hfc' : db.carts.find? (fun c => c.userId == uid) = some cart := hfc
      exact List.mem_of_find?_eq_some hfc'
    have h1 : (checkout db uid addr sel now).1 =
        drainCart ((groupByShop snap.items).foldl
          (processGroup uid addr now) (db, [])).1 snap.cartId sel :=
      (congrArg Prod.fst hc).symm
    have hsub : (db.cartItems.filter
        (fun it => it.cartId == cart.id &&
          (sel.isEmpty || sel.contains it.id))).Sublist
        (db.cartItems.filter (fun it => it.cartId == cart.id)) := by
      apply List.monotone_filter_right
      intro a ha
      simp only [Bool.and_eq_true] at ha
      exact ha.1
    have hitemsnd : ((selectedCartItems db cart.id sel).map
        (fun it => it.productId)).Nodup :=
      (hcart cart hcmem).sublist (hsub.map (fun it => it.productId))
    intro p' hp'
    rw [h1, (drainCart_projs _ _ _).2.2.1,
      (processGroup_foldl uid addr now _ db []).2.1, applyDecs_eq_map] at hp'
    obtain ⟨p, hp, hpe⟩ := List.mem_map.mp hp'
    subst hpe
    show 0 ≤ p.stock - sumQty (joinGroups (groupByShop snap.items)) p.id
    rw [sumQty_perm (groupByShop_join_perm snap.items) p.id, hsitems]
    exact applyDecs_stock_nonneg db (selectedCartItems db cart.id sel)
      h0 hnd hitemsnd hval p hp

theorem checkoutSingle_cases (db : DB) (uid : Nat) (addr : String)
    (now : Nat) :
    (checkoutSingle db uid addr now).1 = db ∨
    ∃ cart, findCartByUser db uid = some cart ∧
      validateItems (enrich db (db.cartItems.filter
        (fun it => it.cartId == cart.id))) = .ok () ∧
      (checkoutSingle db uid addr now).1.products =
        applyDecs (enrich db (db.cartItems.filter
          (fun it => it.cartId == cart.id))) db.products := by
  unfold checkoutSingle
  cases hfc : findCartByUser db uid with
  | none => exact Or.inl rfl
  | some cart =>
    simp only
    split
    · exact Or.inl rfl
    · split
      · exact Or.inl rfl
      · rename_i a heq
        refine Or.inr ⟨cart, rfl, heq, ?_⟩
        exact pis_products db.nextOrderId
          (enrich db (db.cartItems.filter (fun it => it.cartId == cart.id))) _

theorem checkoutSingle_stock_nonneg (db : DB) (uid : Nat) (addr : String)
    (now : Nat)
    (h0 : ∀ p ∈ db.products, 0 ≤ p.stock)
    (hnd : (db.products.map (fun p => p.id)).Nodup)
    (hcart : ∀ c ∈ db.carts, ((db.cartItems.filter
        (fun it => it.cartId == c.id)).map (fun it => it.productId)).Nodup) :
    ∀ p ∈ (checkoutSingle db uid addr now).1.products, 0 ≤ p.stock := by
  rcases checkoutSingle_cases db uid addr now with hs | ⟨cart, hfc, hval, hprod⟩
  · rw [hs]
    exact h0
  · have hcmem : cart ∈ db.carts := by
      have hfc' : db.carts.find? (fun c => c.userId == uid) = some cart := hfc
      exact List.mem_of_find?_eq_some hfc'
    intro p' hp'
    rw [hprod, applyDecs_eq_map] at hp'
    obtain ⟨p, hp, hpe⟩ := List.mem_map.mp hp'
    subst hpe
    show 0 ≤ p.stock - sumQty (enrich db (db.cartItems.filter
      (fun it => it.cartId == cart.id))) p.id
    exact applyDecs_stock_nonneg db
      (db.cartItems.filter (fun it => it.cartId == cart.id))
      h0 hnd (hcart cart hcmem) hval p hp

/-- Fixture for the C8 counterexample: every stock is non-negative (product 7
has stock 3), but user 2's cart holds two separate lines of product 7, qty 2
each — each line passes the per-line stock check on its own. -/
def dbC8 : DB :=
  { products := [⟨7, 1, "tee", 10, 3, 0, true⟩],
    carts := [⟨1, 2⟩],
    cartItems := [⟨1, 1, 7, 2, 10⟩, ⟨2, 1, 7, 2, 10⟩],
    orders := [], orderItems := [], shops := [⟨1, 9⟩],
    nextCartId := 2, nextCartItemId := 3, nextOrderId := 1,
    nextOrderItemId := 1 }

/-- **C8 counterexample.** Starting from a state in which all stocks are
non-negative, checkout of a cart with two lines of the same product succeeds
(each line is validated against the full stock independently) and the two
unconditional decrements drive product 7's stock to −1, refuting the claim
as stated over arbitrary non-negative-stock states. -/
theorem checkoutDuplicateLinesNegativeStock :
    (∀ p ∈ dbC8.products, 0 ≤ p.stock) ∧
    exceptOk (checkout dbC8 2 "addr" [] 0).2 = true ∧
    stockOf (checkout dbC8 2 "addr" [] 0).1 7 = some (-1) := by decide

/-- **C8 (amended).** Under the store well-formedness the API itself
maintains — unique product ids, non-negative order-item quantities, and at
most one cart line per product within each cart — every operation
(add/update cart line, both checkout variants, the seller and buyer status
transitions, and order cancellation) maps a state with all stocks
non-negative to a state with all stocks non-negative. -/
theorem stockNonnegPreserved (db : DB)
    (h0 : ∀ p ∈ db.products, 0 ≤ p.stock)
    (hnd : (db.products.map (fun p => p.id)).Nodup)
    (hq : ∀ it ∈ db.orderItems, 0 ≤ it.qty)
    (hcart : ∀ c ∈ db.carts, ((db.cartItems.filter
        (fun it => it.cartId == c.id)).map (fun it => it.productId)).Nodup)
    (u pid iid oid : Nat) (q : Int) (st : FulfillmentStatus)
    (addr : String) (sel : List Nat) (now : Nat) :
    (∀ p ∈ (addCartItem db u pid q).1.products, 0 ≤ p.stock) ∧
    (∀ p ∈ (updateCartItem db u iid q).1.products, 0 ≤ p.stock) ∧
    (∀ p ∈ (sellerUpdateStatus db u iid st).1.products, 0 ≤ p.stock) ∧
    (∀ p ∈ (buyerCompleteItem db u iid).1.products, 0 ≤ p.stock) ∧
    (∀ p ∈ (cancelOrder db u oid).1.products, 0 ≤ p.stock) ∧
    (∀ p ∈ (checkout db u addr sel now).1.products, 0 ≤ p.stock) ∧
    (∀ p ∈ (checkoutSingle db u addr now).1.products, 0 ≤ p.stock) := by
  refine ⟨?_, ?_, ?_, ?_, ?_, ?_, ?_⟩
  · rw [addCartItem_products]
    exact h0
  · rw [updateCartItem_products]
    exact h0
  · rw [sellerUpdateStatus_products]
    exact h0
  · rw [buyerCompleteItem_products]
    exact h0
  · exact cancelOrder_stock_nonneg db u oid h0 hq
  · exact checkout_stock_nonneg db u addr sel now h0 hnd hcart
  · exact checkoutSingle_stock_nonneg db u addr now h0 hnd hcart

/-- Well-formed fixture for the C8 witness: two products (stocks 3 and 1),
a cart with one line per product, and one NEW order item. -/
def dbC8w : DB :=
  { products := [⟨7, 1, "tee", 10, 3, 0, true⟩, ⟨8, 1, "mug", 5, 1, 0, true⟩],
    carts := [⟨1, 2⟩],
    cartItems := [⟨1, 1, 7, 2, 10⟩, ⟨2, 1, 8, 1, 5⟩],
    orders := [⟨4, 2, "c", .PAID, 0, "a"⟩],
    orderItems := [⟨5, 4, 7, 1, 1, .NEW, "tee", 10⟩],
    shops := [⟨1, 9⟩],
    nextCartId := 2, nextCartItemId := 3, nextOrderId := 5,
    nextOrderItemId := 6 }

/-- **C8 witness.** The amended invariant applied at the well-formed concrete
store `dbC8w`, with every hypothesis evaluated there. -/
theorem stockNonnegPreservedWitness :
    ((∀ p ∈ dbC8w.products, 0 ≤ p.stock) ∧
     (dbC8w.products.map (fun p => p.id)).Nodup ∧
     (∀ it ∈ dbC8w.orderItems, 0 ≤ it.qty) ∧
     (∀ c ∈ dbC8w.carts, ((dbC8w.cartItems.filter
        (fun it => it.cartId == c.id)).map (fun it => it.productId)).Nodup)) ∧
    ((∀ p ∈ (addCartItem dbC8w 2 8 1).1.products, 0 ≤ p.stock) ∧
     (∀ p ∈ (updateCartItem dbC8w 2 1 1).1.products, 0 ≤ p.stock) ∧
     (∀ p ∈ (sellerUpdateStatus dbC8w 2 1 .CONFIRMED).1.products, 0 ≤ p.stock) ∧
     (∀ p ∈ (buyerCompleteItem dbC8w 2 1).1.products, 0 ≤ p.stock) ∧
     (∀ p ∈ (cancelOrder dbC8w 2 4).1.products, 0 ≤ p.stock) ∧
     (∀ p ∈ (checkout dbC8w 2 "a" [] 0).1.products, 0 ≤ p.stock) ∧
     (∀ p ∈ (checkoutSingle dbC8w 2 "a" 0).1.products, 0 ≤ p.stock)) :=
  ⟨⟨by decide, by decide, by decide, by decide⟩,
   stockNonnegPreserved dbC8w (by decide) (by decide) (by decide) (by decide)
     2 8 1 4 1 .CONFIRMED "a" [] 0⟩

/-! ## C9: two concurrent checkouts on the last unit -/

/-- The interleaving the source permits for two concurrent `POST /checkout`
handlers: each runs its read/validate phase (`cart.findUnique`,
`cartItem.findMany`, the stock loop — all *outside* `prisma.$transaction`)
against the same state, then the two transactions commit one after the
other; the decrements inside the transaction are unconditional relative
updates (`stock: { decrement: it.qty }`), re-checking nothing. `none` means
at least one request was rejected in its validation phase. -/
def checkoutRace (db : DB) (u1 u2 : Nat) (a1 a2 : String) (now : Nat) :
    Option (DB × List Order × List Order) :=
  match checkoutValidate db u1 [], checkoutValidate db u2 [] with
  | .ok s1, .ok s2 =>
    let r1 := checkoutCommit db u1 a1 now [] s1
    let r2 := checkoutCommit r1.1 u2 a2 now [] s2
    some (r2.1, r1.2, r2.2)
  | _, _ => none

/-- Fixture for C9: product 7 has stock 1; buyers 2 and 3 each hold a cart
with a single line of product 7, qty 1. -/
def dbR : DB :=
  { products := [⟨7, 1, "tee", 10, 1, 0, true⟩],
    carts := [⟨1, 2⟩, ⟨2, 3⟩],
    cartItems := [⟨1, 1, 7, 1, 10⟩, ⟨2, 2, 7, 1, 10⟩],
    orders := [], orderItems := [], shops := [⟨1, 9⟩],
    nextCartId := 3, nextCartItemId := 3, nextOrderId := 1,
    nextOrderItemId := 1 }

/-- **C9.** With stock 1 and two racing checkouts of qty 1 each, the
read-then-write structure lets *both* validations pass and *both*
transactions commit: each buyer gets an order and the final stock is −1 —
not the claimed exactly-one-success. Sequentially (the loser running after
the winner's commit, as the claim demands) the second call does fail with
`InsufficientStock`. -/
theorem checkoutRaceLostUpdate :
    stockOf dbR 7 = some 1 ∧
    (checkoutRace dbR 2 3 "a" "b" 0).map
      (fun d => ((d.2.1.length, d.2.2.length), stockOf d.1 7)) =
      some ((1, 1), some (-1)) ∧
    (checkout (checkout dbR 2 "a" [] 0).1 3 "b" [] 0).2 =
      .error (.insufficientStock 7) := by decide

end ECom
